import Mathlib

/-!
# Verification of the waterstation payment / credential core

Shallow embedding of the waterstation repository (JavaScript) in Lean 4.

* JS numbers are modelled as exact rationals extended with `NaN` and the two
  infinities (`JsNum`); IEEE rounding of intermediate results and signed zero
  are not modelled (all claim-relevant arithmetic is exact at the inputs the
  claims mention).
* The PostgreSQL `otps` table is a `List Otp`; SQL `UPDATE ... WHERE id = $n`
  is a map over the list, `SELECT ... ORDER BY created_at DESC LIMIT 1` picks
  the matching element with the greatest `createdAt`.
* Timestamps are `Nat` (milliseconds); `NOW()` is an explicit `now` argument.
* The SHA-256 hash of `utils/otpGenerator.js` is an abstract parameter
  `H : String → String`; `crypto.timingSafeEqual` of two hex digests is
  equality of the digests.
* The Redis cache is an association list keyed by transaction reference.
-/

namespace WaterStation

/-! ## JS numbers -/

/-- A JavaScript number: `NaN`, `±Infinity`, or a finite value (exact rational). -/
inductive JsNum where
  | nan
  | posInf
  | negInf
  | num (q : ℚ)
deriving DecidableEq, Repr

/-- JS `<`: any comparison with `NaN` is false. -/
def jsLt : JsNum → JsNum → Bool
  | .nan, _ => false
  | _, .nan => false
  | .posInf, _ => false
  | .negInf, .negInf => false
  | .negInf, _ => true
  | .num _, .negInf => false
  | .num _, .posInf => true
  | .num a, .num b => a < b

/-- JS `>`. -/
def jsGt (a b : JsNum) : Bool := jsLt b a

/-- JS `<=`: false whenever either side is `NaN`, otherwise `¬(b < a)`. -/
def jsLe : JsNum → JsNum → Bool
  | .nan, _ => false
  | _, .nan => false
  | a, b => !(jsLt b a)

/-- JS `isNaN` (arguments are already numbers in this model). -/
def jsIsNaN : JsNum → Bool
  | .nan => true
  | _ => false

/-- JS truthiness of a number: `0` and `NaN` are falsy. -/
def jsTruthy : JsNum → Bool
  | .nan => false
  | .num q => decide (q ≠ 0)
  | _ => true

/-- JS division (signed zero not modelled; the divisor is the constant price
in every use of this development). -/
def jsDiv : JsNum → JsNum → JsNum
  | .nan, _ => .nan
  | _, .nan => .nan
  | .posInf, .posInf => .nan
  | .posInf, .negInf => .nan
  | .negInf, .posInf => .nan
  | .negInf, .negInf => .nan
  | .posInf, .num b => if b < 0 then .negInf else .posInf
  | .negInf, .num b => if b < 0 then .posInf else .negInf
  | .num _, .posInf => .num 0
  | .num _, .negInf => .num 0
  | .num a, .num b =>
      if b = 0 then (if a = 0 then .nan else if a < 0 then .negInf else .posInf)
      else .num (a / b)

/-- JS multiplication. -/
def jsMul : JsNum → JsNum → JsNum
  | .nan, _ => .nan
  | _, .nan => .nan
  | .posInf, .posInf => .posInf
  | .posInf, .negInf => .negInf
  | .negInf, .posInf => .negInf
  | .negInf, .negInf => .posInf
  | .posInf, .num b => if b = 0 then .nan else if b < 0 then .negInf else .posInf
  | .negInf, .num b => if b = 0 then .nan else if b < 0 then .posInf else .negInf
  | .num a, .posInf => if a = 0 then .nan else if a < 0 then .negInf else .posInf
  | .num a, .negInf => if a = 0 then .nan else if a < 0 then .posInf else .negInf
  | .num a, .num b => .num (a * b)

/-- JS subtraction. -/
def jsSub : JsNum → JsNum → JsNum
  | .nan, _ => .nan
  | _, .nan => .nan
  | .posInf, .posInf => .nan
  | .posInf, _ => .posInf
  | .negInf, .negInf => .nan
  | .negInf, _ => .negInf
  | .num _, .posInf => .negInf
  | .num _, .negInf => .posInf
  | .num a, .num b => .num (a - b)

/-- `Math.round` on a finite value: half-up, `⌊x + 1/2⌋`. -/
def jsRoundQ (q : ℚ) : ℤ := ⌊q + 1/2⌋

/-- `Math.round` on a JS number. -/
def jsRound : JsNum → JsNum
  | .nan => .nan
  | .posInf => .posInf
  | .negInf => .negInf
  | .num q => .num (jsRoundQ q)

/-- `Math.ceil`. -/
def jsCeil : JsNum → JsNum
  | .nan => .nan
  | .posInf => .posInf
  | .negInf => .negInf
  | .num q => .num ⌈q⌉

/-- `Math.floor`. -/
def jsFloor : JsNum → JsNum
  | .nan => .nan
  | .posInf => .posInf
  | .negInf => .negInf
  | .num q => .num ⌊q⌋

/-! ## Pricing engine (`src/backend/src/utils/pricingCalculator.js`) -/

/-- Rounding strategy of `pricing.config.js` (the JS `switch` treats any
string other than `up`/`down` as `nearest`, its `default` branch). -/
inductive RoundingStrategy where
  | up
  | down
  | nearest
deriving DecidableEq, Repr

/-- `pricingConfig` (`src/backend/src/config/pricing.config.js`). -/
structure PricingConfig where
  pricePerLiter : JsNum
  currency : String
  minAmount : JsNum
  maxAmount : JsNum
  roundingStrategy : RoundingStrategy
deriving DecidableEq, Repr

/-- The configuration with every environment variable unset (the defaults
hard-coded in `pricing.config.js`). -/
def defaultPricingConfig : PricingConfig :=
  { pricePerLiter := .num 5
    currency := "KES"
    minAmount := .num 5
    maxAmount := .num 70000
    roundingStrategy := .nearest }

/-- Errors thrown by the pricing utilities (all carry HTTP status 400). -/
inductive PricingErr where
  /-- `'Amount and price must be positive numbers'` / `'Liters and price must
  be positive numbers'` -/
  | notPositive
  /-- `'Amount must be at least <minAmount> <currency>'` -/
  | belowMin
  /-- `'Amount cannot exceed <maxAmount> <currency>'` -/
  | aboveMax
deriving DecidableEq, Repr

/-- `price = pricePerLiter || pricingConfig.pricePerLiter`: a missing or
falsy (`0`, `NaN`) argument falls back to the configured price. -/
def resolvePrice (cfg : PricingConfig) : Option JsNum → JsNum
  | none => cfg.pricePerLiter
  | some p => if jsTruthy p then p else cfg.pricePerLiter

/-- `calculateLiters(amount, pricePerLiter)`. -/
def calculateLiters (cfg : PricingConfig) (amount : JsNum) (priceArg : Option JsNum) :
    Except PricingErr JsNum :=
  let price := resolvePrice cfg priceArg
  if jsLe amount (.num 0) || jsLe price (.num 0) then .error .notPositive
  else
    let exactLiters := jsDiv amount price
    match cfg.roundingStrategy with
    | .up => .ok (jsCeil exactLiters)
    | .down => .ok (jsFloor exactLiters)
    | .nearest => .ok (jsRound exactLiters)

/-- `calculateAmount(liters, pricePerLiter)`. -/
def calculateAmount (cfg : PricingConfig) (liters : JsNum) (priceArg : Option JsNum) :
    Except PricingErr JsNum :=
  let price := resolvePrice cfg priceArg
  if jsLe liters (.num 0) || jsLe price (.num 0) then .error .notPositive
  else .ok (jsMul liters price)

/-- The record returned by `getPaymentPreview`. -/
structure Preview where
  requestedAmount : JsNum
  amount : JsNum
  liters : JsNum
  pricePerLiter : JsNum
  currency : String
  roundingStrategy : RoundingStrategy
  difference : JsNum
deriving DecidableEq, Repr

/-- `getPaymentPreview(amount, pricePerLiter)`. -/
def getPaymentPreview (cfg : PricingConfig) (amount : JsNum) (priceArg : Option JsNum) :
    Except PricingErr Preview :=
  let price := resolvePrice cfg priceArg
  if jsLt amount cfg.minAmount then .error .belowMin
  else if jsGt amount cfg.maxAmount then .error .aboveMax
  else do
    let liters ← calculateLiters cfg amount (some price)
    let adjustedAmount ← calculateAmount cfg liters (some price)
    .ok { requestedAmount := amount
          amount := adjustedAmount
          liters := liters
          pricePerLiter := price
          currency := cfg.currency
          roundingStrategy := cfg.roundingStrategy
          difference := jsSub adjustedAmount amount }

/-- One entry of the `errors` array of `validatePaymentAmount`. -/
inductive AmountError where
  /-- `'Amount must be a valid number'` -/
  | notANumber
  /-- `'Amount must be greater than 0'` -/
  | notPositive
  /-- `'Amount must be at least <minAmount> <currency>'` -/
  | belowMin
  /-- `'Amount cannot exceed <maxAmount> <currency>'` -/
  | aboveMax
deriving DecidableEq, Repr

/-- `validatePaymentAmount(amount)`: collects every applicable error, in
source order (the `typeof` check cannot fire here because the model's inputs
are always numbers, so only its `isNaN` half remains). -/
def validatePaymentAmount (cfg : PricingConfig) (amount : JsNum) : List AmountError :=
  (if jsIsNaN amount then [AmountError.notANumber] else []) ++
  (if jsLe amount (.num 0) then [AmountError.notPositive] else []) ++
  (if jsLt amount cfg.minAmount then [AmountError.belowMin] else []) ++
  (if jsGt amount cfg.maxAmount then [AmountError.aboveMax] else [])

/-- Outcome of `mpesaPaymentService.getPaymentPreview` (validation first,
then the pricing utility). -/
inductive PreviewOutcome where
  /-- `validatePaymentAmount` found errors; HTTP 400 with the joined list. -/
  | invalid (errs : List AmountError)
  /-- an error thrown inside the pricing utility (HTTP 400). -/
  | rejected (e : PricingErr)
  | ok (p : Preview)
deriving DecidableEq, Repr

/-- `mpesaPaymentService.getPaymentPreview(amount)`
(`src/backend/src/services/mpesaPaymentService.js`). -/
def mpesaGetPaymentPreview (cfg : PricingConfig) (amount : JsNum) : PreviewOutcome :=
  let errs := validatePaymentAmount cfg amount
  if errs.isEmpty then
    match getPaymentPreview cfg amount none with
    | .error e => .rejected e
    | .ok p => .ok p
  else .invalid errs

/-- The spec's `OUT_OF_RANGE` class of validation errors. -/
def isOutOfRangeErr : AmountError → Bool
  | .belowMin => true
  | .aboveMax => true
  | _ => false

/-- The spec's `INVALID_INPUT` class of validation errors. -/
def isInvalidInputErr : AmountError → Bool
  | .notANumber => true
  | .notPositive => true
  | _ => false

/-- A preview field is finite. -/
def jsFinite : JsNum → Bool
  | .num _ => true
  | _ => false

/-! ## One-time-code generation (`src/backend/src/utils/otpGenerator.js`,
provided as `src/unnamed/part_011`) -/

/-- `otpConfig.length` with `OTP_LENGTH` unset (`config/otp.config.js`). -/
def otpLength : Nat := 6

/-- `min = Math.pow(10, otpConfig.length - 1)`. -/
def otpMin : Nat := 10 ^ (otpLength - 1)

/-- `max = Math.pow(10, otpConfig.length) - 1`. -/
def otpMax : Nat := 10 ^ otpLength - 1

/-- `generateOTP()` as a function of the 32-bit value read from
`crypto.randomBytes(4).readUInt32BE(0)`: the raw value is reduced onto the
code range by `randomNumber % (max - min + 1) + min` (naive modulo). The
final `toString().padStart(length, '0')` is the decimal rendering; it is a
no-op on padding because the value is already ≥ `otpMin`. -/
def otpFromRandom (r : Nat) : Nat := r % (otpMax - otpMin + 1) + otpMin

/-- The set of 32-bit values the generator draws from. -/
def otpRandomSource : Finset Nat := Finset.range (2 ^ 32)

/-- The 32-bit draws that produce the code `v`. Uniformity of the generator
is the statement that every code in `[otpMin, otpMax]` has a fiber of the
same size. -/
def otpFiber (v : Nat) : Finset Nat :=
  otpRandomSource.filter (fun r => otpFromRandom r = v)

/-! ## Credential data model (`otps` table, `src/backend/src/models` and
`src/backend/src/repositories/otpRepository.js`) -/

/-- `otps.status`. -/
inductive OtpStatus where
  | active
  | inProgress
  | used
  | expired
  | blocked
deriving DecidableEq, Repr

/-- One row of the `otps` table, as mapped by `_mapRowToOtp`. -/
structure Otp where
  id : Nat
  transactionReference : String
  otpHash : String
  liters : ℚ
  status : OtpStatus
  stationId : Option String
  attempts : Nat
  maxAttempts : Nat
  usedAt : Option Nat
  verifiedAt : Option Nat
  expiresAt : Nat
  createdAt : Nat
deriving DecidableEq, Repr

/-- `transaction_reference = $1`. -/
def refMatches (ref : String) (o : Otp) : Bool :=
  o.transactionReference == ref

/-- `status IN ('active','in_progress') AND expires_at > NOW()`. -/
def liveTail (now : Nat) (o : Otp) : Bool :=
  (o.status == .active || o.status == .inProgress) && now < o.expiresAt

/-- The `WHERE` clause of `findActiveByTransaction`:
`transaction_reference = $1 AND status IN ('active','in_progress') AND
expires_at > NOW()`. -/
def isLive (now : Nat) (ref : String) (o : Otp) : Bool :=
  refMatches ref o && liveTail now o

/-- One step of the `ORDER BY created_at DESC LIMIT 1` scan. -/
def pickStep (acc : Option Otp) (o : Otp) : Option Otp :=
  match acc with
  | none => some o
  | some b => if b.createdAt < o.createdAt then some o else some b

/-- `ORDER BY created_at DESC LIMIT 1` over a list: the matching element with
the greatest `createdAt` (first occurrence wins a tie). -/
def pickLatest (l : List Otp) : Option Otp :=
  l.foldl pickStep none

/-- `otpRepository.findActiveByTransaction(transactionReference)`. -/
def findActiveByTransaction (db : List Otp) (ref : String) (now : Nat) : Option Otp :=
  pickLatest (db.filter (isLive now ref))

/-- `otpRepository.update(id, { status })` (the only shape of `update` the
services use besides `markAsUsed`). -/
def updateStatus (db : List Otp) (id : Nat) (st : OtpStatus) : List Otp :=
  db.map (fun o => if o.id = id then { o with status := st } else o)

/-- `otpRepository.markInProgress(id, stationId)`: sets `status =
'in_progress'`, `station_id`, `verified_at = CURRENT_TIMESTAMP`. -/
def markInProgress (db : List Otp) (id : Nat) (sid : String) (now : Nat) : List Otp :=
  db.map (fun o =>
    if o.id = id then
      { o with status := .inProgress, stationId := some sid, verifiedAt := some now }
    else o)

/-- `otpRepository.markAsUsed(id)` = `update(id, { status: 'used', usedAt })`. -/
def markAsUsed (db : List Otp) (id : Nat) (now : Nat) : List Otp :=
  db.map (fun o =>
    if o.id = id then { o with status := .used, usedAt := some now } else o)

/-- The per-row effect of `incrementAttempts`: `attempts = attempts + 1`,
`status = CASE WHEN attempts + 1 >= max_attempts THEN 'blocked' ELSE status END`. -/
def incrementAttemptsRow (o : Otp) : Otp :=
  { o with
    attempts := o.attempts + 1
    status := if o.maxAttempts ≤ o.attempts + 1 then .blocked else o.status }

/-- `otpRepository.incrementAttempts(id)`. -/
def incrementAttempts (db : List Otp) (id : Nat) : List Otp :=
  db.map (fun o => if o.id = id then incrementAttemptsRow o else o)

/-- `otpRepository.markExpired()` (the sweep of `otpExpirationService`):
`SET status = 'expired' WHERE status = 'active' AND expires_at <= NOW()`. -/
def markExpired (db : List Otp) (now : Nat) : List Otp :=
  db.map (fun o =>
    if o.status = .active ∧ o.expiresAt ≤ now then { o with status := .expired } else o)

/-- The fresh `SERIAL` id the database would assign on `INSERT`. -/
def nextId (db : List Otp) : Nat :=
  db.foldl (fun m o => max m o.id) 0 + 1

/-! ## Station-facing verification
(`src/backend/src/services/stationOtpService.js`) -/

/-- `stationConfig` (`src/src/config/station.config.js`); defaults
`pulsesPerLiter = 1000`, `enforceStationLock = true`. -/
structure StationConfig where
  pulsesPerLiter : ℚ
  enforceStationLock : Bool
deriving DecidableEq, Repr

/-- Defaults with the environment unset. -/
def defaultStationConfig : StationConfig :=
  { pulsesPerLiter := 1000, enforceStationLock := true }

/-- Outcome of `verifyOTPForStation`, one constructor per `throw`/`return`. -/
inductive StationVerify where
  /-- `'Transaction reference, OTP, and station ID are required'` (400) -/
  | missingFields
  /-- `'OTP must be a 6-digit string'` (400) -/
  | badOtpFormat
  /-- `'OTP not found or expired'` (404) -/
  | notFound
  /-- `'OTP has expired'` (400) -/
  | expired
  /-- `'OTP has already been used'` (400) -/
  | alreadyUsed
  /-- `'OTP has been blocked due to too many failed attempts'` (400) -/
  | blocked
  /-- `'OTP is locked to station <lockedTo> …'` (403) -/
  | stationLocked (lockedTo : String)
  /-- `'OTP is already in use at station <usedAt>'` (409) -/
  | inUseElsewhere (usedAt : Option String)
  /-- `'Invalid OTP. <remaining> attempt(s) remaining'` (400) -/
  | invalidCode (remaining : Nat)
  /-- dispensing authorized: `{ liters, pulses, status: 'in_progress', verifiedAt }` -/
  | success (liters : ℚ) (pulses : ℤ) (verifiedAt : Nat)
deriving DecidableEq, Repr

/-- HTTP status code of each outcome (200 for the success payload). -/
def stationStatusCode : StationVerify → Nat
  | .missingFields => 400
  | .badOtpFormat => 400
  | .notFound => 404
  | .expired => 400
  | .alreadyUsed => 400
  | .blocked => 400
  | .stationLocked _ => 403
  | .inUseElsewhere _ => 409
  | .invalidCode _ => 400
  | .success _ _ _ => 200

/-- Whether an outcome is a dispensing authorization. -/
def isSuccess : StationVerify → Bool
  | .success _ _ _ => true
  | _ => false

/-- `stationOtpService.verifyOTPForStation({transactionReference, otp,
stationId})`. `H` is the hash; a candidate is correct iff its hash equals the
stored `otp_hash`. Returns the outcome together with the updated `otps`
table. -/
def verifyOTPForStation (cfg : StationConfig) (H : String → String)
    (db : List Otp) (ref code sid : String) (now : Nat) :
    StationVerify × List Otp :=
  if ref = "" ∨ code = "" ∨ sid = "" then (.missingFields, db)
  else if code.length ≠ 6 then (.badOtpFormat, db)
  else
    match findActiveByTransaction db ref now with
    | none => (.notFound, db)
    | some o =>
      if o.expiresAt ≤ now then (.expired, updateStatus db o.id .expired)
      else if o.status = .used then (.alreadyUsed, db)
      else if o.status = .blocked then (.blocked, db)
      else if cfg.enforceStationLock ∧ o.stationId.isSome ∧ o.stationId ≠ some sid then
        (.stationLocked (o.stationId.getD ""), db)
      else if o.status = .inProgress ∧ o.stationId ≠ some sid then
        (.inUseElsewhere o.stationId, db)
      else if H code ≠ o.otpHash then
        let upd := incrementAttemptsRow o
        let db' := incrementAttempts db o.id
        if upd.status = .blocked then (.blocked, db')
        else (.invalidCode (upd.maxAttempts - upd.attempts), db')
      else
        (.success o.liters (jsRoundQ (o.liters * cfg.pulsesPerLiter)) now,
         markInProgress db o.id sid now)

/-! ## Customer-facing OTP service (`src/backend/src/services/otpService.js`)
with its Redis read-through cache -/

/-- `otpConfig` (`config/otp.config.js`); defaults: TTL 10 minutes, 3
attempts, cache enabled. -/
structure OtpConfig where
  expirationMinutes : Nat
  maxAttempts : Nat
  cacheEnabled : Bool
deriving DecidableEq, Repr

/-- Defaults with the environment unset. -/
def defaultOtpConfig : OtpConfig :=
  { expirationMinutes := 10, maxAttempts := 3, cacheEnabled := true }

/-- The JSON blob `otpService` stores in Redis under `otp:<reference>`.
It deliberately has no database `id`. -/
structure CacheEntry where
  otpHash : String
  liters : ℚ
  expiresAt : Nat
  attempts : Nat
deriving DecidableEq, Repr

/-- The Redis cache, keyed by transaction reference. -/
def Cache := List (String × CacheEntry)
deriving instance DecidableEq, Repr for Cache

/-- `redisClient.get('otp:' + ref)`. -/
def cacheGet (c : Cache) (ref : String) : Option CacheEntry :=
  (List.find? (fun p => p.1 = ref) c).map (fun p => p.2)

/-- `redisClient.setEx('otp:' + ref, ttl, data)`. -/
def cacheSet (c : Cache) (ref : String) (e : CacheEntry) : Cache :=
  (ref, e) :: List.filter (fun p => p.1 ≠ ref) c

/-- `redisClient.del('otp:' + ref)`. -/
def cacheDel (c : Cache) (ref : String) : Cache :=
  List.filter (fun p => p.1 ≠ ref) c

/-- What `verifyOTP` loaded: a cache hit (no `id`!) or a database row. -/
inductive Loaded where
  | fromCache (e : CacheEntry)
  | fromDb (o : Otp)
deriving DecidableEq, Repr

/-- Outcome of the customer `verifyOTP`. -/
inductive CustomerVerify where
  /-- `'OTP not found or expired'` (404) -/
  | notFound
  /-- `'OTP has expired'` (400) -/
  | expired
  /-- `'OTP has already been used'` (400) -/
  | alreadyUsed
  /-- `'OTP has been blocked due to too many failed attempts'` (400) -/
  | blocked
  /-- `'Invalid OTP'` (400) -/
  | invalidCode
  /-- `{ valid: true, liters }` -/
  | valid (liters : ℚ)
deriving DecidableEq, Repr

/-- HTTP status code of each customer-verify outcome. -/
def customerStatusCode : CustomerVerify → Nat
  | .notFound => 404
  | .valid _ => 200
  | _ => 400

/-- `otpService.verifyOTP({transactionReference, otp})`. Returns the outcome
with the updated `otps` table and cache. The cached record is rebuilt exactly
as in the source: `{otpHash, liters, expiresAt, attempts, status: 'active'}`
— and no `id`, so every branch that mutates the database is guarded by
`if (otpRecord.id)` and silently skipped on a cache hit. -/
def customerVerifyOTP (cfg : OtpConfig) (H : String → String)
    (db : List Otp) (cache : Cache) (ref code : String) (now : Nat) :
    CustomerVerify × List Otp × Cache :=
  let fromCache : Option Loaded :=
    if cfg.cacheEnabled then (cacheGet cache ref).map .fromCache else none
  let loaded : Option Loaded :=
    match fromCache with
    | some l => some l
    | none => (findActiveByTransaction db ref now).map .fromDb
  match loaded with
  | none => (.notFound, db, cache)
  | some l =>
    let expiresAt := match l with | .fromCache e => e.expiresAt | .fromDb o => o.expiresAt
    let status := match l with | .fromCache _ => OtpStatus.active | .fromDb o => o.status
    let hash := match l with | .fromCache e => e.otpHash | .fromDb o => o.otpHash
    let liters := match l with | .fromCache e => e.liters | .fromDb o => o.liters
    if expiresAt ≤ now then
      let db' := match l with | .fromDb o => updateStatus db o.id .expired | .fromCache _ => db
      let cache' := if cfg.cacheEnabled then cacheDel cache ref else cache
      (.expired, db', cache')
    else if status = .used then (.alreadyUsed, db, cache)
    else if status = .blocked then (.blocked, db, cache)
    else if H code ≠ hash then
      match l with
      | .fromDb o =>
        let upd := incrementAttemptsRow o
        let db' := incrementAttempts db o.id
        let cache' :=
          if cfg.cacheEnabled then
            cacheSet cache ref
              { otpHash := upd.otpHash, liters := upd.liters
                expiresAt := upd.expiresAt, attempts := upd.attempts }
          else cache
        if upd.status = .blocked then (.blocked, db', cache')
        else (.invalidCode, db', cache')
      | .fromCache _ =>
        -- `otpRecord.id` is undefined: the increment is skipped entirely.
        (.invalidCode, db, cache)
    else
      let db' := match l with | .fromDb o => markAsUsed db o.id now | .fromCache _ => db
      let cache' := if cfg.cacheEnabled then cacheDel cache ref else cache
      (.valid liters, db', cache')

/-! ## Transactions and credential issuance -/

/-- Transaction status values shared by both payment variants. -/
inductive TxStatus where
  | pending
  | processing
  | completed
  | failed
  | cancelled
  | timeout
  | expired
deriving DecidableEq, Repr

/-- One row of `mpesa_transactions`
(`src/backend/src/repositories/mpesaTransactionRepository.js`). -/
structure MpesaTx where
  transactionReference : String
  phoneNumber : String
  amount : ℚ
  liters : ℚ
  status : TxStatus
  checkoutRequestId : Option String
  resultCode : Option ℤ
  resultDesc : Option String
  mpesaReceiptNumber : Option String
deriving DecidableEq, Repr

/-- One row of the hosted-checkout (Paystack) `transactions` table, as
mapped by `TransactionRepository._mapRowToTransaction` (the second document
in `src/backend/src/repositories/mpesaTransactionRepository.js`), reduced to
the fields the credential and webhook code reads. Note the table has no
`liters` column. -/
structure HostedTx where
  transactionReference : String
  email : String
  amount : ℚ
  status : TxStatus
  expiresAt : Option Nat
deriving DecidableEq, Repr

/-- `transactionRepository.findByReference(transactionReference)`:
`SELECT * FROM transactions WHERE transaction_reference = $1` — it queries
only the hosted-checkout `transactions` table, never `mpesa_transactions`. -/
def transactionFindByReference (hdb : List HostedTx) (ref : String) :
    Option HostedTx :=
  List.find? (fun t => t.transactionReference = ref) hdb

/-- Outcome of `otpService.generateOTP`. -/
inductive GenerateOtp where
  /-- `'Transaction not found'` (404) -/
  | txNotFound
  /-- `'OTP can only be generated for completed transactions'` (400) -/
  | txNotCompleted
  /-- the single plaintext exposure of the code -/
  | ok (otp : String) (liters : ℚ) (expiresAt : Nat)
deriving DecidableEq, Repr

/-- `otpService.generateOTP({transactionReference, liters})`. `freshCode` is
the value `generateOTP()` drew from the secure random source. Requires the
transaction to be `completed`; expires the existing *live* credential (the
one `findActiveByTransaction` returns) before inserting the new row. -/
def generateOTPService (cfg : OtpConfig) (H : String → String)
    (hdb : List HostedTx) (db : List Otp) (cache : Cache)
    (ref : String) (liters : ℚ) (freshCode : String) (now : Nat) :
    GenerateOtp × List Otp × Cache :=
  match transactionFindByReference hdb ref with
  | none => (.txNotFound, db, cache)
  | some tx =>
    if tx.status ≠ .completed then (.txNotCompleted, db, cache)
    else
      let db1 :=
        match findActiveByTransaction db ref now with
        | some e => updateStatus db e.id .expired
        | none => db
      let expiresAt := now + cfg.expirationMinutes * 60000
      let newOtp : Otp :=
        { id := nextId db1
          transactionReference := ref
          otpHash := H freshCode
          liters := liters
          status := .active
          stationId := none
          attempts := 0
          maxAttempts := cfg.maxAttempts
          usedAt := none
          verifiedAt := none
          expiresAt := expiresAt
          createdAt := now }
      let db2 := db1 ++ [newOtp]
      let cache' :=
        if cfg.cacheEnabled then
          cacheSet cache ref
            { otpHash := H freshCode, liters := liters
              expiresAt := expiresAt, attempts := 0 }
        else cache
      (.ok freshCode liters expiresAt, db2, cache')

/-! ## M-Pesa callback handling
(`src/backend/src/services/mpesaPaymentService.js`) -/

/-- The parsed Daraja STK callback (`darajaService.validateCallback`). -/
structure DarajaCallback where
  checkoutRequestId : String
  resultCode : ℤ
  resultDesc : String
  mpesaReceiptNumber : Option String
deriving DecidableEq, Repr

/-- Status derived from the Daraja result code in `handleCallback`. -/
def statusFromResultCode (rc : ℤ) : TxStatus :=
  if rc = 0 then .completed
  else if rc = 1032 then .cancelled
  else if rc = 1037 then .timeout
  else .failed

/-- `mpesaTransactionRepository.update(reference, updates)` with the update
shape `handleCallback` uses. -/
def mpesaApplyCallback (mdb : List MpesaTx) (ref : String) (st : TxStatus)
    (rc : ℤ) (desc : String) (receipt : Option String) : List MpesaTx :=
  mdb.map (fun t =>
    if t.transactionReference = ref then
      { t with
        status := st
        resultCode := some rc
        resultDesc := some desc
        mpesaReceiptNumber :=
          if st = .completed then receipt else t.mpesaReceiptNumber }
    else t)

/-- The whole persistent state the callback handler touches. `smsLog`
records each `smsService.sendOTP` call as `(phoneNumber, plaintext code)`
(the collaborator is modelled as always succeeding). -/
structure SysState where
  mpesa : List MpesaTx
  hosted : List HostedTx
  otps : List Otp
  cache : Cache
  smsLog : List (String × String)
deriving DecidableEq, Repr

/-- Outcome of `handleCallback`. -/
inductive CallbackResult where
  /-- `'Transaction not found'` (404) -/
  | txNotFound
  /-- the callback was processed; the transaction now has this status -/
  | processed (st : TxStatus)
deriving DecidableEq, Repr

/-- `mpesaPaymentService.handleCallback(callbackData)`. On a success result
code it unconditionally calls `otpService.generateOTP` (whose transaction
lookup queries only the hosted `transactions` table); OTP/SMS failures are
swallowed by the inner try/catch. -/
def handleCallback (cfg : OtpConfig) (H : String → String)
    (s : SysState) (cb : DarajaCallback) (freshCode : String) (now : Nat) :
    CallbackResult × SysState :=
  match List.find? (fun t => t.checkoutRequestId = some cb.checkoutRequestId) s.mpesa with
  | none => (.txNotFound, s)
  | some tx =>
    let st := statusFromResultCode cb.resultCode
    let mdb' := mpesaApplyCallback s.mpesa tx.transactionReference st
      cb.resultCode cb.resultDesc cb.mpesaReceiptNumber
    let s1 := { s with mpesa := mdb' }
    if st = .completed then
      match generateOTPService cfg H s1.hosted s1.otps s1.cache
        tx.transactionReference tx.liters freshCode now with
      | (.ok otp _ _, db', cache') =>
        (.processed st,
         { s1 with otps := db', cache := cache'
                   smsLog := s1.smsLog ++ [(tx.phoneNumber, otp)] })
      | (_, db', cache') =>
        -- `generateOTP` threw; `handleCallback` logs and carries on.
        (.processed st, { s1 with otps := db', cache := cache' })
    else (.processed st, s1)

/-! ## The credential-store invariant of spec §3 -/

/-- Number of credentials for `ref` that are *live* (status `active` or
`in_progress` and not past their expiry) at time `now`. -/
def liveCount (db : List Otp) (ref : String) (now : Nat) : Nat :=
  (db.filter (isLive now ref)).length

/-- Primary-key uniqueness of the `otps.id` column. -/
def IdsNodup (db : List Otp) : Prop :=
  (db.map Otp.id).Nodup

/-- The credential-store invariant: ids are unique and at most one live
credential exists per transaction reference. -/
def CredInvariant (db : List Otp) (now : Nat) : Prop :=
  IdsNodup db ∧ ∀ ref, liveCount db ref now ≤ 1

/-! ## Concrete fixtures for the counterexample scenarios -/

/-- Hash function used in concrete scenarios: the stored `otp_hash` is then
simply the plaintext image, so "correct code" = "code equal to the one the
record was created with". -/
def idHash : String → String := fun s => s

/-- A freshly issued credential for transaction `TX1`: code hash `123456`,
10 liters, 3 attempts allowed, expires at time 1000. -/
def sampleOtp : Otp :=
  { id := 1, transactionReference := "TX1", otpHash := "123456", liters := 10,
    status := .active, stationId := none, attempts := 0, maxAttempts := 3,
    usedAt := none, verifiedAt := none, expiresAt := 1000, createdAt := 0 }

/-- The same credential after two failed attempts (one away from blocking). -/
def sampleOtpNearBlock : Otp := { sampleOtp with attempts := 2 }

/-- The same credential whose expiry (time 5) has already passed. -/
def sampleStaleOtp : Otp := { sampleOtp with expiresAt := 5 }

/-- The Redis entry `generateOTP` caches for `sampleOtp`. -/
def sampleEntry : CacheEntry :=
  { otpHash := "123456", liters := 10, expiresAt := 1000, attempts := 0 }

/-- `otpConfig` with the cache turned off. -/
def cfgNoCache : OtpConfig := { defaultOtpConfig with cacheEnabled := false }

/-- An M-Pesa transaction awaiting its STK callback. -/
def sampleMpesaTx : MpesaTx :=
  { transactionReference := "TX1", phoneNumber := "254700000001", amount := 50,
    liters := 10, status := .processing, checkoutRequestId := some "CR1",
    resultCode := none, resultDesc := none, mpesaReceiptNumber := none }

/-- A completed hosted-checkout transaction for `TX1`. -/
def sampleHostedTx : HostedTx :=
  { transactionReference := "TX1", email := "a@b.c", amount := 50,
    status := .completed, expiresAt := none }

/-- System state holding only `sampleMpesaTx`. -/
def sampleState : SysState :=
  { mpesa := [sampleMpesaTx], hosted := [], otps := [], cache := [], smsLog := [] }

/-- The provider's success callback (result code 0) for `sampleMpesaTx`. -/
def sampleCallback : DarajaCallback :=
  { checkoutRequestId := "CR1", resultCode := 0, resultDesc := "ok",
    mpesaReceiptNumber := some "R1" }

/-! ## Helper lemmas: JS comparisons on finite values -/

lemma jsLt_num_num (a b : ℚ) : jsLt (.num a) (.num b) = decide (a < b) := rfl

lemma jsGt_num_num (a b : ℚ) : jsGt (.num a) (.num b) = decide (b < a) := rfl

lemma jsLe_num_num (a b : ℚ) : jsLe (.num a) (.num b) = !decide (b < a) := rfl

/-! ## Pricing: symbolic evaluation on finite in-range amounts -/

lemma validatePaymentAmount_num (q : ℚ) :
    validatePaymentAmount defaultPricingConfig (.num q) =
      (if q ≤ 0 then [AmountError.notPositive] else []) ++
      (if q < 5 then [AmountError.belowMin] else []) ++
      (if 70000 < q then [AmountError.aboveMax] else []) := by
  simp only [validatePaymentAmount, defaultPricingConfig, jsIsNaN, jsLe_num_num,
    jsLt_num_num, jsGt_num_num, Bool.not_eq_true', decide_eq_false_iff_not, not_lt,
    decide_eq_true_eq, List.nil_append]
  rcases le_or_lt q 0 with h0 | h0 <;>
    rcases lt_or_le q 5 with h5 | h5 <;>
      rcases le_or_lt q 70000 with h7 | h7 <;>
        simp_all

lemma validatePaymentAmount_num_in_range (q : ℚ) (h5 : 5 ≤ q) (h7 : q ≤ 70000) :
    validatePaymentAmount defaultPricingConfig (.num q) = [] := by
  rw [validatePaymentAmount_num]
  rw [if_neg (by linarith), if_neg (by linarith), if_neg (by linarith)]
  rfl

lemma dpcPrice : defaultPricingConfig.pricePerLiter = .num 5 := rfl

lemma dpcMin : defaultPricingConfig.minAmount = .num 5 := rfl

lemma dpcMax : defaultPricingConfig.maxAmount = .num 70000 := rfl

lemma dpcStrategy : defaultPricingConfig.roundingStrategy = .nearest := rfl

lemma dpcCurrency : defaultPricingConfig.currency = "KES" := rfl

lemma calculateLiters_default_num (q : ℚ) (h0 : 0 < q) :
    calculateLiters defaultPricingConfig (.num q) (some (.num 5)) =
      .ok (.num (⌊q / 5 + 1/2⌋ : ℚ)) := by
  norm_num [calculateLiters, resolvePrice, jsTruthy, dpcStrategy, dpcPrice,
    jsLe_num_num, jsDiv, jsRound, jsRoundQ, h0]

lemma calculateAmount_default_num (L : ℚ) (hL : 0 < L) :
    calculateAmount defaultPricingConfig (.num L) (some (.num 5)) =
      .ok (.num (L * 5)) := by
  norm_num [calculateAmount, resolvePrice, jsTruthy, jsLe_num_num, jsMul, hL]

lemma getPaymentPreview_default_num (q : ℚ) (h5 : 5 ≤ q) (h7 : q ≤ 70000) :
    getPaymentPreview defaultPricingConfig (.num q) none =
      .ok { requestedAmount := .num q
            amount := .num ((⌊q / 5 + 1/2⌋ : ℚ) * 5)
            liters := .num (⌊q / 5 + 1/2⌋ : ℚ)
            pricePerLiter := .num 5
            currency := "KES"
            roundingStrategy := .nearest
            difference := .num ((⌊q / 5 + 1/2⌋ : ℚ) * 5 - q) } := by
  have h0 : (0 : ℚ) < q := by linarith
  have hL : (1 : ℤ) ≤ ⌊q / 5 + 1/2⌋ := by
    rw [Int.le_floor]
    push_cast
    linarith
  have hL' : (0 : ℚ) < (⌊q / 5 + 1/2⌋ : ℚ) := by
    exact_mod_cast lt_of_lt_of_le Int.zero_lt_one hL
  have hn5 : ¬q < 5 := not_lt.mpr h5
  have hn7 : ¬(70000 : ℚ) < q := not_lt.mpr h7
  norm_num [getPaymentPreview, resolvePrice, dpcPrice, dpcMin, dpcMax,
    dpcStrategy, dpcCurrency, jsLt_num_num, jsGt_num_num, hn5, hn7,
    calculateLiters_default_num q h0, calculateAmount_default_num _ hL',
    bind, Except.bind, jsSub]

lemma mpesa_preview_num (q : ℚ) (h5 : 5 ≤ q) (h7 : q ≤ 70000) :
    mpesaGetPaymentPreview defaultPricingConfig (.num q) =
      .ok { requestedAmount := .num q
            amount := .num ((⌊q / 5 + 1/2⌋ : ℚ) * 5)
            liters := .num (⌊q / 5 + 1/2⌋ : ℚ)
            pricePerLiter := .num 5
            currency := "KES"
            roundingStrategy := .nearest
            difference := .num ((⌊q / 5 + 1/2⌋ : ℚ) * 5 - q) } := by
  simp only [mpesaGetPaymentPreview]
  rw [validatePaymentAmount_num_in_range q h5 h7]
  simp only [List.isEmpty_nil, if_true]
  rw [getPaymentPreview_default_num q h5 h7]

/-- C6: for every in-range amount with unit price 5 and `nearest` rounding,
the preview returns liters equal to the half-up rounded quotient
`amount / 5`, the adjusted amount `liters × 5`, and the difference
`adjustedAmount − amount`; concretely `preview(52) = {liters 10, amount 50,
difference -2}` and `preview(53) = {liters 11, amount 55, difference 2}`. -/
theorem preview_half_up_rounding :
    (∀ q : ℚ, 5 ≤ q → q ≤ 70000 →
      mpesaGetPaymentPreview defaultPricingConfig (.num q) =
        .ok { requestedAmount := .num q
              amount := .num ((⌊q / 5 + 1/2⌋ : ℚ) * 5)
              liters := .num (⌊q / 5 + 1/2⌋ : ℚ)
              pricePerLiter := .num 5
              currency := "KES"
              roundingStrategy := .nearest
              difference := .num ((⌊q / 5 + 1/2⌋ : ℚ) * 5 - q) }) ∧
    mpesaGetPaymentPreview defaultPricingConfig (.num 52) =
      .ok { requestedAmount := .num 52, amount := .num 50, liters := .num 10,
            pricePerLiter := .num 5, currency := "KES",
            roundingStrategy := .nearest, difference := .num (-2) } ∧
    mpesaGetPaymentPreview defaultPricingConfig (.num 53) =
      .ok { requestedAmount := .num 53, amount := .num 55, liters := .num 11,
            pricePerLiter := .num 5, currency := "KES",
            roundingStrategy := .nearest, difference := .num 2 } := by
  refine ⟨mpesa_preview_num, ?_, ?_⟩ <;>
    · norm_num [mpesaGetPaymentPreview, validatePaymentAmount, getPaymentPreview,
        calculateLiters, calculateAmount, resolvePrice, defaultPricingConfig,
        jsIsNaN, jsLe, jsLt, jsGt, jsTruthy, jsDiv, jsMul, jsSub, jsRound, jsRoundQ,
        bind, Except.bind]

/-- Witness for C6 at the concrete in-range amount 60. -/
theorem preview_half_up_rounding_witness :
    mpesaGetPaymentPreview defaultPricingConfig (.num 60) =
      .ok { requestedAmount := .num 60, amount := .num 60, liters := .num 12,
            pricePerLiter := .num 5, currency := "KES",
            roundingStrategy := .nearest, difference := .num 0 } := by
  have h := preview_half_up_rounding.1 60 (by norm_num) (by norm_num)
  rw [h]
  norm_num

lemma mpesa_preview_invalid_eq (q : ℚ) (h : ¬(5 ≤ q ∧ q ≤ 70000)) :
    mpesaGetPaymentPreview defaultPricingConfig (.num q) =
      .invalid ((if q ≤ 0 then [AmountError.notPositive] else []) ++
        (if q < 5 then [AmountError.belowMin] else []) ++
        (if 70000 < q then [AmountError.aboveMax] else [])) := by
  have h' : q < 5 ∨ 70000 < q := by
    rcases not_and_or.mp h with h1 | h2
    · exact Or.inl (not_le.mp h1)
    · exact Or.inr (not_le.mp h2)
  simp only [mpesaGetPaymentPreview, validatePaymentAmount_num]
  rw [if_neg]
  simp only [List.isEmpty_iff, List.append_eq_nil]
  rintro ⟨⟨-, h2⟩, h3⟩
  rcases h' with h5 | h7
  · rw [if_pos h5] at h2
    exact List.cons_ne_nil _ _ h2
  · rw [if_pos h7] at h3
    exact List.cons_ne_nil _ _ h3

/-- C7 (amended): the composed preview (validation, then pricing) fails with
an out-of-range error whenever the amount is below `minAmount` or above
`maxAmount` (this includes `+∞`, which fails *only* as above-max); it fails
with an invalid-input error whenever the amount is `NaN` or non-positive
(including `-∞`); and every successful preview consists solely of finite
numbers. -/
theorem preview_error_classification :
    ∀ a : JsNum,
      (jsLt a defaultPricingConfig.minAmount = true →
        ∃ errs, mpesaGetPaymentPreview defaultPricingConfig a = .invalid errs ∧
          AmountError.belowMin ∈ errs) ∧
      (jsGt a defaultPricingConfig.maxAmount = true →
        ∃ errs, mpesaGetPaymentPreview defaultPricingConfig a = .invalid errs ∧
          AmountError.aboveMax ∈ errs) ∧
      (a = .nan →
        mpesaGetPaymentPreview defaultPricingConfig a = .invalid [.notANumber]) ∧
      (jsLe a (.num 0) = true →
        ∃ errs, mpesaGetPaymentPreview defaultPricingConfig a = .invalid errs ∧
          AmountError.notPositive ∈ errs) ∧
      (∀ p, mpesaGetPaymentPreview defaultPricingConfig a = .ok p →
        jsFinite p.requestedAmount ∧ jsFinite p.amount ∧ jsFinite p.liters ∧
          jsFinite p.difference) := by
  intro a
  cases a with
  | nan =>
    refine ⟨?_, ?_, ?_, ?_, ?_⟩
    · intro h
      exact absurd h (by decide)
    · intro h
      exact absurd h (by decide)
    · intro _
      decide
    · intro h
      exact absurd h (by decide)
    · intro p hp
      rw [show mpesaGetPaymentPreview defaultPricingConfig .nan =
        .invalid [.notANumber] from by decide] at hp
      cases hp
  | posInf =>
    refine ⟨?_, ?_, ?_, ?_, ?_⟩
    · intro h
      exact absurd h (by decide)
    · intro _
      exact ⟨[.aboveMax], by decide, by decide⟩
    · intro h
      exact absurd h (by decide)
    · intro h
      exact absurd h (by decide)
    · intro p hp
      rw [show mpesaGetPaymentPreview defaultPricingConfig .posInf =
        .invalid [.aboveMax] from by decide] at hp
      cases hp
  | negInf =>
    refine ⟨?_, ?_, ?_, ?_, ?_⟩
    · intro _
      exact ⟨[.notPositive, .belowMin], by decide, by decide⟩
    · intro h
      exact absurd h (by decide)
    · intro h
      exact absurd h (by decide)
    · intro _
      exact ⟨[.notPositive, .belowMin], by decide, by decide⟩
    · intro p hp
      rw [show mpesaGetPaymentPreview defaultPricingConfig .negInf =
        .invalid [.notPositive, .belowMin] from by decide] at hp
      cases hp
  | num q =>
    refine ⟨?_, ?_, ?_, ?_, ?_⟩
    · intro h
      have hq5 : q < 5 := by
        simpa [jsLt_num_num, dpcMin] using h
      refine ⟨_, mpesa_preview_invalid_eq q (by rintro ⟨h1, -⟩; linarith), ?_⟩
      by_cases hq0 : q ≤ 0 <;>
        simp [hq0, hq5, show ¬(70000 : ℚ) < q by linarith]
    · intro h
      have hq7 : (70000 : ℚ) < q := by
        simpa [jsGt_num_num, dpcMax] using h
      refine ⟨_, mpesa_preview_invalid_eq q (by rintro ⟨-, h2⟩; linarith), ?_⟩
      simp [hq7, show ¬q ≤ 0 by linarith, show ¬q < 5 by linarith]
    · intro h
      exact absurd h (by simp)
    · intro h
      have hq0 : q ≤ 0 := by
        have := h
        simp only [jsLe_num_num, Bool.not_eq_true', decide_eq_false_iff_not,
          not_lt] at this
        exact this
      refine ⟨_, mpesa_preview_invalid_eq q (by rintro ⟨h1, -⟩; linarith), ?_⟩
      simp [hq0, show q < 5 by linarith, show ¬(70000 : ℚ) < q by linarith]
    · intro p hp
      by_cases hin : 5 ≤ q ∧ q ≤ 70000
      · rw [mpesa_preview_num q hin.1 hin.2] at hp
        cases hp
        simp [jsFinite]
      · rw [mpesa_preview_invalid_eq q hin] at hp
        cases hp

/-- C7 counterexample: at the concrete input `+Infinity` the preview fails,
but only with the above-max (out-of-range) error — it does not fail with any
invalid-input error, although `+Infinity` is non-finite. -/
theorem preview_posInf_no_invalid_input :
    mpesaGetPaymentPreview defaultPricingConfig .posInf = .invalid [.aboveMax] ∧
    ¬∃ errs, mpesaGetPaymentPreview defaultPricingConfig .posInf = .invalid errs ∧
      (AmountError.notANumber ∈ errs ∨ AmountError.notPositive ∈ errs) := by
  refine ⟨by decide, ?_⟩
  rintro ⟨errs, heq, hmem⟩
  rw [show mpesaGetPaymentPreview defaultPricingConfig .posInf =
    .invalid [.aboveMax] from by decide] at heq
  cases heq
  rcases hmem with h | h <;> simp at h

/-- Witness for C7 at the concrete input `+Infinity` (above `maxAmount`). -/
theorem preview_error_classification_witness :
    ∃ errs, mpesaGetPaymentPreview defaultPricingConfig .posInf = .invalid errs ∧
      AmountError.aboveMax ∈ errs :=
  (preview_error_classification .posInf).2.1 rfl

/-! ## C5: the OTP generator -/

lemma otpFromRandom_mem_Icc (r : Nat) : otpFromRandom r ∈ Finset.Icc otpMin otpMax := by
  have hspan : otpMax - otpMin + 1 = 900000 := by norm_num [otpMin, otpMax, otpLength]
  have hmod : r % 900000 < 900000 := Nat.mod_lt _ (by norm_num)
  simp only [otpFromRandom, hspan, Finset.mem_Icc]
  constructor
  · simp [otpMin, otpLength]
  · simp only [otpMax, otpMin, otpLength]
    omega

lemma otp_source_card_fiberwise :
    otpRandomSource.card = ∑ v ∈ Finset.Icc otpMin otpMax, (otpFiber v).card :=
  Finset.card_eq_sum_card_fiberwise (fun r _ => otpFromRandom_mem_Icc r)

lemma otp_source_card : otpRandomSource.card = 2 ^ 32 := by
  simp [otpRandomSource]

lemma otp_range_card : (Finset.Icc otpMin otpMax).card = 900000 := by
  rw [Nat.card_Icc]
  norm_num [otpMin, otpMax, otpLength]

lemma otpFiber_const_card (h : ∀ v ∈ Finset.Icc otpMin otpMax,
      ∀ w ∈ Finset.Icc otpMin otpMax, (otpFiber v).card = (otpFiber w).card) :
    (2 : Nat) ^ 32 = 900000 * (otpFiber otpMin).card := by
  have hmem : otpMin ∈ Finset.Icc otpMin otpMax := by
    simp only [Finset.mem_Icc]
    exact ⟨le_refl _, by norm_num [otpMin, otpMax, otpLength]⟩
  have e1 : (2 : Nat) ^ 32 = ∑ v ∈ Finset.Icc otpMin otpMax, (otpFiber v).card :=
    otp_source_card.symm.trans otp_source_card_fiberwise
  have e2 : ∑ v ∈ Finset.Icc otpMin otpMax, (otpFiber v).card =
      (Finset.Icc otpMin otpMax).card * (otpFiber otpMin).card :=
    Finset.sum_const_nat (fun v hv => h v hv otpMin hmem)
  have e3 : (Finset.Icc otpMin otpMax).card * (otpFiber otpMin).card =
      900000 * (otpFiber otpMin).card := by
    rw [otp_range_card]
  exact e1.trans (e2.trans e3)

lemma card_eq_absurd (c : Nat) (hcard : (2 : Nat) ^ 32 = 900000 * c) : False := by
  have h3 : (3 : ℕ) ∣ 2 ^ 32 := ⟨300000 * c, by rw [hcard]; ring⟩
  have h4 : (3 : ℕ) ∣ 2 := Nat.Prime.dvd_of_dvd_pow Nat.prime_three h3
  omega

lemma otpFiber_not_const :
    ¬ (∀ v ∈ Finset.Icc otpMin otpMax, ∀ w ∈ Finset.Icc otpMin otpMax,
        (otpFiber v).card = (otpFiber w).card) :=
  fun h => card_eq_absurd _ (otpFiber_const_card h)

/-- C5 counterexample: the generator's reduction of the 32-bit draw onto the
900000-value code range by naive modulo is not uniform — the fibers over the
code range cannot all have the same size, because 900000 does not divide
2^32. -/
theorem otp_generator_not_uniform :
    ¬ (∀ v ∈ Finset.Icc otpMin otpMax, ∀ w ∈ Finset.Icc otpMin otpMax,
        (otpFiber v).card = (otpFiber w).card) :=
  otpFiber_not_const

/-- C5 (amended): code generation reads 4 cryptographically secure random
bytes and reduces them onto the code range by naive modulo
(`randomNumber % (max - min + 1) + min`), not by reject-and-resample; every
output is a fixed-length (6-digit) code in `[100000, 999999]`, but the
distribution is not uniform over that range. -/
theorem otp_code_in_range_but_biased :
    (∀ r : Nat, otpFromRandom r ∈ Finset.Icc otpMin otpMax) ∧
    ¬ (∀ v ∈ Finset.Icc otpMin otpMax, ∀ w ∈ Finset.Icc otpMin otpMax,
        (otpFiber v).card = (otpFiber w).card) :=
  ⟨otpFromRandom_mem_Icc, otpFiber_not_const⟩

/-! ## Machinery for the credential-store proofs -/

lemma pickStep_isSome (acc : Option Otp) (o : Otp) : ∃ b, pickStep acc o = some b := by
  cases acc with
  | none => exact ⟨o, rfl⟩
  | some b =>
    by_cases h : b.createdAt < o.createdAt
    · exact ⟨o, by simp [pickStep, h]⟩
    · exact ⟨b, by simp [pickStep, h]⟩

lemma foldl_pickStep_mem :
    ∀ (l : List Otp) (acc : Option Otp) (o : Otp),
      l.foldl pickStep acc = some o → o ∈ l ∨ acc = some o := by
  intro l
  induction l with
  | nil => exact fun acc o h => Or.inr h
  | cons x xs ih =>
    intro acc o h
    rcases ih (pickStep acc x) o h with hm | hs
    · exact Or.inl (List.mem_cons_of_mem _ hm)
    · cases acc with
      | none =>
        simp only [pickStep] at hs
        cases hs
        exact Or.inl (List.mem_cons_self _ _)
      | some b =>
        by_cases hb : b.createdAt < x.createdAt
        · simp only [pickStep, if_pos hb] at hs
          cases hs
          exact Or.inl (List.mem_cons_self _ _)
        · simp only [pickStep, if_neg hb] at hs
          exact Or.inr hs

lemma foldl_pickStep_none :
    ∀ (l : List Otp) (acc : Option Otp), l.foldl pickStep acc = none → l = [] ∧ acc = none := by
  intro l
  induction l with
  | nil => exact fun acc h => ⟨rfl, h⟩
  | cons x xs ih =>
    intro acc h
    rcases ih (pickStep acc x) h with ⟨-, hstep⟩
    rcases pickStep_isSome acc x with ⟨b, hb⟩
    rw [hb] at hstep
    cases hstep

lemma pickLatest_mem {l : List Otp} {o : Otp} (h : pickLatest l = some o) : o ∈ l := by
  rcases foldl_pickStep_mem l none o h with hm | hs
  · exact hm
  · cases hs

lemma pickLatest_eq_none_iff {l : List Otp} : pickLatest l = none ↔ l = [] := by
  constructor
  · exact fun h => (foldl_pickStep_none l none h).1
  · rintro rfl
    rfl

lemma findActive_isLive {db : List Otp} {ref : String} {now : Nat} {o : Otp}
    (h : findActiveByTransaction db ref now = some o) :
    o ∈ db ∧ isLive now ref o = true := by
  have hm := pickLatest_mem h
  have := List.mem_filter.mp hm
  exact ⟨this.1, this.2⟩

lemma findActive_none_iff {db : List Otp} {ref : String} {now : Nat} :
    findActiveByTransaction db ref now = none ↔ db.filter (isLive now ref) = [] :=
  pickLatest_eq_none_iff

lemma filter_isLive_split (db : List Otp) (ref : String) (now : Nat) :
    db.filter (isLive now ref) = (db.filter (refMatches ref)).filter (liveTail now) := by
  induction db with
  | nil => rfl
  | cons x xs ih =>
    by_cases hr : refMatches ref x
    · by_cases hl : liveTail now x
      · simp [List.filter_cons, isLive, hr, hl, ih]
      · simp [List.filter_cons, isLive, hr, hl, ih]
    · simp [List.filter_cons, isLive, hr, ih]

lemma findActive_of_refFilter_singleton {db : List Otp} {ref : String} {o : Otp}
    (h : db.filter (refMatches ref) = [o]) (now : Nat) :
    findActiveByTransaction db ref now = if liveTail now o then some o else none := by
  unfold findActiveByTransaction
  rw [filter_isLive_split, h]
  by_cases hl : liveTail now o
  · simp [List.filter_cons, hl, pickLatest, pickStep]
  · simp [List.filter_cons, hl, pickLatest]

lemma filter_ref_map {g : Otp → Otp}
    (hg : ∀ x, (g x).transactionReference = x.transactionReference)
    (db : List Otp) (ref : String) :
    (db.map g).filter (refMatches ref) = (db.filter (refMatches ref)).map g := by
  induction db with
  | nil => rfl
  | cons x xs ih =>
    by_cases hr : refMatches ref x
    · have hr' : refMatches ref (g x) = true := by
        simp only [refMatches, hg x]
        exact hr
      simp [List.filter_cons, hr, hr', ih]
    · have hrf : refMatches ref x = false := by simpa using hr
      have hr' : refMatches ref (g x) = false := by
        simp only [refMatches, hg x]
        exact hrf
      simp [List.filter_cons, hrf, hr', ih]

lemma mem_of_length_le_one {l : List Otp} {a b : Otp}
    (hlen : l.length ≤ 1) (ha : a ∈ l) (hb : b ∈ l) : a = b := by
  match l, hlen with
  | [], _ => cases ha
  | [c], _ =>
    rw [List.mem_singleton] at ha hb
    rw [ha, hb]

lemma id_injective_of_nodup {db : List Otp} (hn : IdsNodup db) {a b : Otp}
    (ha : a ∈ db) (hb : b ∈ db) (hid : a.id = b.id) : a = b := by
  exact List.inj_on_of_nodup_map hn ha hb hid

lemma filter_length_map_le {g : Otp → Otp} {p : Otp → Bool} {db : List Otp}
    (h : ∀ x ∈ db, p (g x) = true → p x = true) :
    ((db.map g).filter p).length ≤ (db.filter p).length := by
  induction db with
  | nil => exact le_refl _
  | cons x xs ih =>
    have ih' := ih (fun y hy => h y (List.mem_cons_of_mem _ hy))
    by_cases hg : p (g x) = true
    · have hx := h x (List.mem_cons_self _ _) hg
      simp only [List.map_cons, List.filter_cons, hg, hx, if_true]
      simpa using ih'
    · simp only [List.map_cons, List.filter_cons, Bool.false_eq_true, hg, if_false]
      by_cases hx : p x = true
      · simp only [hx, if_true, List.length_cons]
        exact le_trans ih' (Nat.le_succ _)
      · simp only [Bool.false_eq_true, hx, if_false]
        exact ih'

lemma filter_length_mono {p q : Otp → Bool} {db : List Otp}
    (h : ∀ x ∈ db, p x = true → q x = true) :
    (db.filter p).length ≤ (db.filter q).length := by
  induction db with
  | nil => exact le_refl _
  | cons x xs ih =>
    have ih' := ih (fun y hy => h y (List.mem_cons_of_mem _ hy))
    by_cases hp : p x = true
    · have hq := h x (List.mem_cons_self _ _) hp
      simp only [List.filter_cons, hp, hq, if_true]
      simpa using ih'
    · simp only [List.filter_cons, Bool.false_eq_true, hp, if_false]
      by_cases hq : q x = true
      · simp only [hq, if_true, List.length_cons]
        exact le_trans ih' (Nat.le_succ _)
      · simp only [Bool.false_eq_true, hq, if_false]
        exact ih'

lemma ids_map_eq {g : Otp → Otp} (hg : ∀ x, (g x).id = x.id) (db : List Otp) :
    (db.map g).map Otp.id = db.map Otp.id := by
  rw [List.map_map]
  exact List.map_congr_left (fun x _ => hg x)

lemma foldl_max_le_self : ∀ (l : List Otp) (acc : Nat),
    acc ≤ l.foldl (fun m o => max m o.id) acc := by
  intro l
  induction l with
  | nil => exact fun acc => le_refl _
  | cons x xs ih =>
    intro acc
    exact le_trans (le_max_left acc x.id) (ih (max acc x.id))

lemma mem_id_le_foldl_max : ∀ (l : List Otp) (acc : Nat) (o : Otp), o ∈ l →
    o.id ≤ l.foldl (fun m o => max m o.id) acc := by
  intro l
  induction l with
  | nil => intro acc o h; cases h
  | cons x xs ih =>
    intro acc o h
    rcases List.mem_cons.mp h with rfl | hmem
    · exact le_trans (le_max_right acc o.id) (foldl_max_le_self xs _)
    · exact ih _ o hmem

lemma mem_id_lt_nextId {db : List Otp} {o : Otp} (h : o ∈ db) : o.id < nextId db :=
  Nat.lt_succ_of_le (mem_id_le_foldl_max db 0 o h)

/-! ## C1: station verification does not consume the credential -/

/-- C1: the code violates single-use redemption. A successful station
verification moves the credential only to `in_progress` (never to `used`),
so the same station can redeem the same credential again: both calls below
return `success` with the full dispensing authorization (10 liters, 10000
pulses). -/
theorem station_redemption_not_single_use :
    (verifyOTPForStation defaultStationConfig idHash [sampleOtp]
      "TX1" "123456" "S1" 10).1 = .success 10 10000 10 ∧
    (verifyOTPForStation defaultStationConfig idHash
      (verifyOTPForStation defaultStationConfig idHash [sampleOtp]
        "TX1" "123456" "S1" 10).2
      "TX1" "123456" "S1" 20).1 = .success 10 10000 20 := by
  constructor <;>
    · simp +decide only [verifyOTPForStation, findActiveByTransaction, pickLatest,
        pickStep, isLive, refMatches, liveTail, sampleOtp, idHash, markInProgress,
        defaultStationConfig, List.filter, List.foldl, List.map]
      norm_num [jsRoundQ]

/-! ## C3: blocking after max attempts -/

/-- C3 counterexample: after the blocking wrong attempt, a further verify
call with the *correct* code fails with `NOT_FOUND` (404), not `BLOCKED`
(400): `findActiveByTransaction` only matches `active`/`in_progress` rows,
so a blocked credential is simply never found. -/
theorem blocked_then_verify_not_found_cex :
    (verifyOTPForStation defaultStationConfig idHash [sampleOtpNearBlock]
      "TX1" "000000" "S1" 10).1 = .blocked ∧
    (verifyOTPForStation defaultStationConfig idHash
      (verifyOTPForStation defaultStationConfig idHash [sampleOtpNearBlock]
        "TX1" "000000" "S1" 10).2
      "TX1" "123456" "S1" 20).1 = .notFound ∧
    stationStatusCode .notFound = 404 ∧ StationVerify.notFound ≠ .blocked := by
  refine ⟨?_, ?_, by decide, by decide⟩ <;>
    simp +decide only [verifyOTPForStation, findActiveByTransaction, pickLatest,
      pickStep, isLive, refMatches, liveTail, sampleOtpNearBlock, sampleOtp, idHash,
      incrementAttempts, incrementAttemptsRow, defaultStationConfig,
      List.filter, List.foldl, List.map]

/-- C3 (amended): the `maxAttempts`-th consecutive wrong verify durably
blocks the credential and that call fails with `BLOCKED` (400); every
further verify call on it fails regardless of code correctness — but with
`NOT_FOUND` (404), because the active-credential lookup excludes blocked
rows. No further call ever succeeds. -/
theorem blocked_after_max_attempts_then_not_found
    (cfg : StationConfig) (H : String → String) (db : List Otp)
    (ref code sid : String) (now : Nat) (o : Otp)
    (href : ref ≠ "") (hcode : code ≠ "") (hsid : sid ≠ "") (hlen : code.length = 6)
    (hfil : db.filter (refMatches ref) = [o])
    (hst : o.status = .active ∨ o.status = .inProgress)
    (hexp : now < o.expiresAt)
    (hlock : o.stationId = none ∨ o.stationId = some sid)
    (hip : o.status = .inProgress → o.stationId = some sid)
    (hwrong : H code ≠ o.otpHash)
    (hmax : o.maxAttempts ≤ o.attempts + 1) :
    verifyOTPForStation cfg H db ref code sid now =
      (.blocked, incrementAttempts db o.id) ∧
    stationStatusCode .blocked = 400 ∧
    (incrementAttempts db o.id).filter (refMatches ref) = [incrementAttemptsRow o] ∧
    (incrementAttemptsRow o).status = .blocked ∧
    ∀ code2 sid2 now2, code2 ≠ "" → sid2 ≠ "" → code2.length = 6 →
      verifyOTPForStation cfg H (incrementAttempts db o.id) ref code2 sid2 now2 =
        (.notFound, incrementAttempts db o.id) := by
  have hlive : liveTail now o = true := by
    rcases hst with h | h <;> simp [liveTail, h, hexp]
  have hfind : findActiveByTransaction db ref now = some o := by
    rw [findActive_of_refFilter_singleton hfil now, if_pos hlive]
  have hused : ¬o.status = .used := by
    rcases hst with h | h <;> simp [h]
  have hblk : ¬o.status = .blocked := by
    rcases hst with h | h <;> simp [h]
  have hlockneg : ¬(cfg.enforceStationLock = true ∧ o.stationId.isSome = true ∧
      o.stationId ≠ some sid) := by
    rcases hlock with h | h <;> rintro ⟨-, h2, h3⟩
    · rw [h] at h2
      cases h2
    · exact h3 h
  have hipneg : ¬(o.status = .inProgress ∧ o.stationId ≠ some sid) := by
    rintro ⟨h1, h2⟩
    exact h2 (hip h1)
  have hrow : (incrementAttemptsRow o).status = .blocked := by
    simp [incrementAttemptsRow, hmax]
  have hmain : verifyOTPForStation cfg H db ref code sid now =
      (.blocked, incrementAttempts db o.id) := by
    unfold verifyOTPForStation
    rw [if_neg (by simp [href, hcode, hsid]), if_neg (by simp [hlen])]
    simp only [hfind]
    rw [if_neg (not_le.mpr hexp), if_neg hused, if_neg hblk, if_neg hlockneg,
      if_neg hipneg, if_pos hwrong]
    simp [hrow]
  have hfil2 : (incrementAttempts db o.id).filter (refMatches ref) =
      [incrementAttemptsRow o] := by
    unfold incrementAttempts
    rw [filter_ref_map (fun x => by
        by_cases h : x.id = o.id <;> simp [h, incrementAttemptsRow]) db ref, hfil]
    simp
  have hnone : ∀ now2, findActiveByTransaction (incrementAttempts db o.id) ref now2 =
      none := by
    intro now2
    rw [findActive_of_refFilter_singleton hfil2 now2, if_neg]
    simp [liveTail, hrow]
  refine ⟨hmain, rfl, hfil2, hrow, ?_⟩
  intro code2 sid2 now2 hcode2 hsid2 hlen2
  unfold verifyOTPForStation
  rw [if_neg (by simp [href, hcode2, hsid2]), if_neg (by simp [hlen2])]
  simp only [hnone now2]

/-- Witness for C3 at a concrete scenario: a credential with 2 of 3 attempts
used, one more wrong code from station S1, then a correct code from S2. -/
theorem blocked_after_max_attempts_then_not_found_witness :
    verifyOTPForStation defaultStationConfig idHash [sampleOtpNearBlock]
      "TX1" "000000" "S1" 10 =
      (.blocked, incrementAttempts [sampleOtpNearBlock] sampleOtpNearBlock.id) ∧
    verifyOTPForStation defaultStationConfig idHash
      (incrementAttempts [sampleOtpNearBlock] sampleOtpNearBlock.id)
      "TX1" "123456" "S2" 20 =
      (.notFound, incrementAttempts [sampleOtpNearBlock] sampleOtpNearBlock.id) := by
  have h := blocked_after_max_attempts_then_not_found defaultStationConfig idHash
    [sampleOtpNearBlock] "TX1" "000000" "S1" 10 sampleOtpNearBlock
    (by decide) (by decide) (by decide) (by decide) rfl (Or.inl rfl) (by decide)
    (Or.inl rfl) (by intro hh; simp [sampleOtpNearBlock, sampleOtp] at hh)
    (by decide) (by decide)
  exact ⟨h.1, h.2.2.2.2 "123456" "S2" 20 (by decide) (by decide) (by decide)⟩

/-! ## C9: station locking -/

/-- C9: the first successful verify from station `s1` locks the credential
to `s1` (sets `station_id`, moves it to `in_progress`); afterwards a verify
attempt with the correct code from a different station `s2` fails with
`FORBIDDEN_STATION_LOCK` (403) when locking is enforced, and with
`IN_USE_ELSEWHERE` (409) when it is not. -/
theorem station_lock_enforced
    (cfg : StationConfig) (H : String → String) (db : List Otp)
    (ref code s1 s2 : String) (now now2 : Nat) (o : Otp)
    (href : ref ≠ "") (hcode : code ≠ "") (hs1 : s1 ≠ "") (hs2 : s2 ≠ "")
    (hlen : code.length = 6)
    (hfil : db.filter (refMatches ref) = [o])
    (hst : o.status = .active)
    (hexp : now < o.expiresAt) (hexp2 : now2 < o.expiresAt)
    (hsid : o.stationId = none)
    (hcorrect : H code = o.otpHash)
    (hne : s2 ≠ s1) :
    verifyOTPForStation cfg H db ref code s1 now =
      (.success o.liters (jsRoundQ (o.liters * cfg.pulsesPerLiter)) now,
        markInProgress db o.id s1 now) ∧
    (markInProgress db o.id s1 now).filter (refMatches ref) =
      [{ o with status := .inProgress, stationId := some s1, verifiedAt := some now }] ∧
    verifyOTPForStation { cfg with enforceStationLock := true } H
      (markInProgress db o.id s1 now) ref code s2 now2 =
      (.stationLocked s1, markInProgress db o.id s1 now) ∧
    stationStatusCode (.stationLocked s1) = 403 ∧
    verifyOTPForStation { cfg with enforceStationLock := false } H
      (markInProgress db o.id s1 now) ref code s2 now2 =
      (.inUseElsewhere (some s1), markInProgress db o.id s1 now) ∧
    stationStatusCode (.inUseElsewhere (some s1)) = 409 := by
  have hlive : liveTail now o = true := by simp [liveTail, hst, hexp]
  have hfind : findActiveByTransaction db ref now = some o := by
    rw [findActive_of_refFilter_singleton hfil now, if_pos hlive]
  have hmain : verifyOTPForStation cfg H db ref code s1 now =
      (.success o.liters (jsRoundQ (o.liters * cfg.pulsesPerLiter)) now,
        markInProgress db o.id s1 now) := by
    unfold verifyOTPForStation
    rw [if_neg (by simp [href, hcode, hs1]), if_neg (by simp [hlen])]
    simp only [hfind]
    rw [if_neg (not_le.mpr hexp), if_neg (by simp [hst]), if_neg (by simp [hst]),
      if_neg (by rintro ⟨-, h2, -⟩; rw [hsid] at h2; cases h2),
      if_neg (by rintro ⟨h1, -⟩; rw [hst] at h1; cases h1),
      if_neg (by simp [hcorrect])]
  set o' : Otp :=
    { o with status := .inProgress, stationId := some s1, verifiedAt := some now }
    with ho'
  have hfil2 : (markInProgress db o.id s1 now).filter (refMatches ref) = [o'] := by
    unfold markInProgress
    rw [filter_ref_map (fun x => by by_cases h : x.id = o.id <;> simp [h]) db ref,
      hfil]
    simp [ho']
  have hfind2 : findActiveByTransaction (markInProgress db o.id s1 now) ref now2 =
      some o' := by
    rw [findActive_of_refFilter_singleton hfil2 now2, if_pos]
    simp [liveTail, ho', hexp2]
  have hlocked : verifyOTPForStation { cfg with enforceStationLock := true } H
      (markInProgress db o.id s1 now) ref code s2 now2 =
      (.stationLocked s1, markInProgress db o.id s1 now) := by
    unfold verifyOTPForStation
    rw [if_neg (by simp [href, hcode, hs2]), if_neg (by simp [hlen])]
    simp only [hfind2]
    rw [if_neg (by simp [ho', not_le.mpr hexp2]), if_neg (by simp [ho']),
      if_neg (by simp [ho']), if_pos (by simp [ho', hne.symm])]
    simp [ho']
  have hinuse : verifyOTPForStation { cfg with enforceStationLock := false } H
      (markInProgress db o.id s1 now) ref code s2 now2 =
      (.inUseElsewhere (some s1), markInProgress db o.id s1 now) := by
    unfold verifyOTPForStation
    rw [if_neg (by simp [href, hcode, hs2]), if_neg (by simp [hlen])]
    simp only [hfind2]
    rw [if_neg (by simp [ho', not_le.mpr hexp2]), if_neg (by simp [ho']),
      if_neg (by simp [ho']), if_neg (by simp),
      if_pos (by simp [ho', hne.symm])]
  exact ⟨hmain, hfil2, hlocked, rfl, hinuse, rfl⟩

/-- Witness for C9 at a concrete scenario: `sampleOtp` verified first by
station S1, then attempted from station S2 with the same (correct) code. -/
theorem station_lock_enforced_witness :
    verifyOTPForStation defaultStationConfig idHash [sampleOtp]
      "TX1" "123456" "S1" 10 =
      (.success sampleOtp.liters
        (jsRoundQ (sampleOtp.liters * defaultStationConfig.pulsesPerLiter)) 10,
        markInProgress [sampleOtp] sampleOtp.id "S1" 10) ∧
    verifyOTPForStation defaultStationConfig idHash
      (markInProgress [sampleOtp] sampleOtp.id "S1" 10) "TX1" "123456" "S2" 20 =
      (.stationLocked "S1", markInProgress [sampleOtp] sampleOtp.id "S1" 10) := by
  have h := station_lock_enforced defaultStationConfig idHash [sampleOtp]
    "TX1" "123456" "S1" "S2" 10 20 sampleOtp
    (by decide) (by decide) (by decide) (by decide) (by decide) rfl rfl
    (by decide) (by decide) rfl rfl (by decide)
  exact ⟨h.1, h.2.2.1⟩

/-! ## C4: wrong-code verify decisions and the cache -/

/-- C4 counterexample: a verify call with a wrong code whose credential was
served from the read-through cache leaves both the durable store and the
cache untouched — the cached record has no `id`, so the
`if (otpRecord.id)`-guarded durable increment is skipped; in particular the
durable state is not `incrementAttempts` of the store. -/
theorem cache_hit_wrong_code_skips_increment_cex :
    customerVerifyOTP defaultOtpConfig idHash [sampleOtp] [("TX1", sampleEntry)]
      "TX1" "000000" 10 = (.invalidCode, [sampleOtp], [("TX1", sampleEntry)]) ∧
    (customerVerifyOTP defaultOtpConfig idHash [sampleOtp] [("TX1", sampleEntry)]
      "TX1" "000000" 10).2.1 ≠ incrementAttempts [sampleOtp] sampleOtp.id := by
  constructor <;>
    simp +decide only [customerVerifyOTP, cacheGet, cacheSet, cacheDel,
      defaultOtpConfig, sampleOtp, sampleEntry, idHash, incrementAttempts,
      incrementAttemptsRow, List.find?, List.filter, List.map, Option.map, ne_eq]

/-- C4 (amended): state-changing wrong-code decisions are taken against the
durable store only when the credential record was loaded from it. When the
cache yields no record (disabled or miss) and the durable lookup finds the
live credential, a wrong code durably increments the attempts counter and
blocking is decided from that durable counter. (When the record is served
from the cache, the increment is skipped entirely — see the counterexample —
so the cache is still never the basis for a durable mutation.) -/
theorem durable_increment_when_loaded_from_db
    (cfg : OtpConfig) (H : String → String) (db : List Otp) (cache : Cache)
    (ref code : String) (now : Nat) (o : Otp)
    (hnc : cfg.cacheEnabled = false ∨ cacheGet cache ref = none)
    (hfil : db.filter (refMatches ref) = [o])
    (hst : o.status = .active ∨ o.status = .inProgress)
    (hexp : now < o.expiresAt)
    (hwrong : H code ≠ o.otpHash) :
    (customerVerifyOTP cfg H db cache ref code now).2.1 =
      incrementAttempts db o.id ∧
    ((customerVerifyOTP cfg H db cache ref code now).1 = .blocked ↔
      o.maxAttempts ≤ o.attempts + 1) ∧
    ((customerVerifyOTP cfg H db cache ref code now).1 = .blocked ∨
      (customerVerifyOTP cfg H db cache ref code now).1 = .invalidCode) := by
  have hlive : liveTail now o = true := by
    rcases hst with h | h <;> simp [liveTail, h, hexp]
  have hfind : findActiveByTransaction db ref now = some o := by
    rw [findActive_of_refFilter_singleton hfil now, if_pos hlive]
  have hfc : (if cfg.cacheEnabled then (cacheGet cache ref).map Loaded.fromCache
      else none) = none := by
    rcases hnc with h | h
    · simp [h]
    · simp [h]
  have hused : ¬o.status = .used := by rcases hst with h | h <;> simp [h]
  have hblk : ¬o.status = .blocked := by rcases hst with h | h <;> simp [h]
  have hmain : customerVerifyOTP cfg H db cache ref code now =
      (if (incrementAttemptsRow o).status = .blocked then .blocked else .invalidCode,
        incrementAttempts db o.id,
        if cfg.cacheEnabled then
          cacheSet cache ref
            { otpHash := (incrementAttemptsRow o).otpHash
              liters := (incrementAttemptsRow o).liters
              expiresAt := (incrementAttemptsRow o).expiresAt
              attempts := (incrementAttemptsRow o).attempts }
        else cache) := by
    unfold customerVerifyOTP
    simp only [hfc, hfind, Option.map_some']
    rw [if_neg (not_le.mpr hexp), if_neg hused, if_neg hblk, if_pos hwrong]
    by_cases hb : (incrementAttemptsRow o).status = .blocked <;> simp [hb]
  by_cases hmax : o.maxAttempts ≤ o.attempts + 1
  · have hrow : (incrementAttemptsRow o).status = .blocked := by
      simp [incrementAttemptsRow, hmax]
    rw [hmain, if_pos hrow]
    exact ⟨rfl, by simp [hmax], Or.inl rfl⟩
  · have hrow : ¬(incrementAttemptsRow o).status = .blocked := by
      rcases hst with h | h <;> simp [incrementAttemptsRow, hmax, h]
    rw [hmain, if_neg hrow]
    refine ⟨rfl, ?_, Or.inr rfl⟩
    simp [hmax]

/-- Witness for C4 at a concrete scenario: cache disabled, wrong code
`000000` against `sampleOtp` — the store is durably incremented. -/
theorem durable_increment_when_loaded_from_db_witness :
    (customerVerifyOTP cfgNoCache idHash [sampleOtp] [] "TX1" "000000" 10).2.1 =
      incrementAttempts [sampleOtp] sampleOtp.id ∧
    ((customerVerifyOTP cfgNoCache idHash [sampleOtp] [] "TX1" "000000" 10).1 =
      .blocked ↔ sampleOtp.maxAttempts ≤ sampleOtp.attempts + 1) := by
  have h := durable_increment_when_loaded_from_db cfgNoCache idHash [sampleOtp] []
    "TX1" "000000" 10 sampleOtp (Or.inl rfl) rfl (Or.inl rfl) (by decide) (by decide)
  exact ⟨h.1, h.2.1⟩

/-! ## C10: the customer verify consumes the credential on success -/

/-- C10 counterexample: when the successful customer verify is served from
the cache, the durable credential is *not* transitioned to `used` (the
cached record has no `id`), and a later station verify for the same
reference still succeeds and authorizes dispensing instead of failing with
`NOT_FOUND`. -/
theorem cache_hit_success_skips_mark_used_cex :
    customerVerifyOTP defaultOtpConfig idHash [sampleOtp] [("TX1", sampleEntry)]
      "TX1" "123456" 10 = (.valid 10, [sampleOtp], []) ∧
    (verifyOTPForStation defaultStationConfig idHash [sampleOtp]
      "TX1" "123456" "S1" 20).1 = .success 10 10000 20 ∧
    (verifyOTPForStation defaultStationConfig idHash [sampleOtp]
      "TX1" "123456" "S1" 20).1 ≠ .notFound := by
  refine ⟨?_, ?_, ?_⟩
  · simp +decide only [customerVerifyOTP, cacheGet, cacheSet, cacheDel,
      defaultOtpConfig, sampleOtp, sampleEntry, idHash, markAsUsed,
      List.find?, List.filter, List.map, Option.map]
  · simp +decide only [verifyOTPForStation, findActiveByTransaction, pickLatest,
      pickStep, isLive, refMatches, liveTail, sampleOtp, idHash, markInProgress,
      defaultStationConfig, List.filter, List.foldl, List.map]
    norm_num [jsRoundQ]
  · simp +decide only [verifyOTPForStation, findActiveByTransaction, pickLatest,
      pickStep, isLive, refMatches, liveTail, sampleOtp, idHash, markInProgress,
      defaultStationConfig, List.filter, List.foldl, List.map, ne_eq]

/-- C10 (amended): when the customer verify loads the credential from the
durable store (cache disabled or cache miss), a successful verify with the
correct code transitions it directly to `used` (setting `usedAt`), and any
later station verify for the same reference fails with `NOT_FOUND` (404). -/
theorem db_loaded_success_marks_used
    (cfg : OtpConfig) (H : String → String) (db : List Otp) (cache : Cache)
    (ref code : String) (now : Nat) (o : Otp)
    (href : ref ≠ "")
    (hnc : cfg.cacheEnabled = false ∨ cacheGet cache ref = none)
    (hfil : db.filter (refMatches ref) = [o])
    (hst : o.status = .active ∨ o.status = .inProgress)
    (hexp : now < o.expiresAt)
    (hcorrect : H code = o.otpHash) :
    customerVerifyOTP cfg H db cache ref code now =
      (.valid o.liters, markAsUsed db o.id now,
        if cfg.cacheEnabled then cacheDel cache ref else cache) ∧
    (markAsUsed db o.id now).filter (refMatches ref) =
      [{ o with status := .used, usedAt := some now }] ∧
    (∀ scfg code2 sid2 now2, code2 ≠ "" → sid2 ≠ "" → code2.length = 6 →
      verifyOTPForStation scfg H (markAsUsed db o.id now) ref code2 sid2 now2 =
        (.notFound, markAsUsed db o.id now)) ∧
    stationStatusCode .notFound = 404 := by
  have hlive : liveTail now o = true := by
    rcases hst with h | h <;> simp [liveTail, h, hexp]
  have hfind : findActiveByTransaction db ref now = some o := by
    rw [findActive_of_refFilter_singleton hfil now, if_pos hlive]
  have hfc : (if cfg.cacheEnabled then (cacheGet cache ref).map Loaded.fromCache
      else none) = none := by
    rcases hnc with h | h
    · simp [h]
    · simp [h]
  have hused : ¬o.status = .used := by rcases hst with h | h <;> simp [h]
  have hblk : ¬o.status = .blocked := by rcases hst with h | h <;> simp [h]
  have hmain : customerVerifyOTP cfg H db cache ref code now =
      (.valid o.liters, markAsUsed db o.id now,
        if cfg.cacheEnabled then cacheDel cache ref else cache) := by
    unfold customerVerifyOTP
    simp only [hfc, hfind, Option.map_some']
    rw [if_neg (not_le.mpr hexp), if_neg hused, if_neg hblk,
      if_neg (by simp [hcorrect])]
  have hfil2 : (markAsUsed db o.id now).filter (refMatches ref) =
      [{ o with status := .used, usedAt := some now }] := by
    unfold markAsUsed
    rw [filter_ref_map (fun x => by by_cases h : x.id = o.id <;> simp [h]) db ref,
      hfil]
    simp
  have hnone : ∀ now2, findActiveByTransaction (markAsUsed db o.id now) ref now2 =
      none := by
    intro now2
    rw [findActive_of_refFilter_singleton hfil2 now2, if_neg]
    simp [liveTail]
  refine ⟨hmain, hfil2, ?_, rfl⟩
  intro scfg code2 sid2 now2 hcode2 hsid2 hlen2
  unfold verifyOTPForStation
  rw [if_neg (by simp [href, hcode2, hsid2]), if_neg (by simp [hlen2])]
  simp only [hnone now2]

/-- Witness for C10 at a concrete scenario: cache disabled, correct code
against `sampleOtp`, then a station verify at time 20. -/
theorem db_loaded_success_marks_used_witness :
    customerVerifyOTP cfgNoCache idHash [sampleOtp] [] "TX1" "123456" 10 =
      (.valid sampleOtp.liters, markAsUsed [sampleOtp] sampleOtp.id 10,
        if cfgNoCache.cacheEnabled then cacheDel [] "TX1" else []) ∧
    verifyOTPForStation defaultStationConfig idHash
      (markAsUsed [sampleOtp] sampleOtp.id 10) "TX1" "123456" "S1" 20 =
      (.notFound, markAsUsed [sampleOtp] sampleOtp.id 10) := by
  have h := db_loaded_success_marks_used cfgNoCache idHash [sampleOtp] []
    "TX1" "123456" 10 sampleOtp (by decide) (Or.inl rfl) rfl (Or.inl rfl)
    (by decide) rfl
  exact ⟨h.1, h.2.2.1 defaultStationConfig "123456" "S1" 20 (by decide) (by decide)
    (by decide)⟩

/-! ## C2: duplicate success callbacks are a no-op -/

lemma find?_map_of_pres {g : MpesaTx → MpesaTx} {p : MpesaTx → Bool}
    (hp : ∀ x, p (g x) = p x) (l : List MpesaTx) :
    List.find? p (l.map g) = (List.find? p l).map g := by
  induction l with
  | nil => rfl
  | cons a l ih =>
    rw [List.map_cons, List.find?_cons, List.find?_cons, hp a]
    cases h : p a
    · exact ih
    · rfl

lemma mpesaApplyCallback_find?_checkout (mdb : List MpesaTx) (ref : String)
    (st : TxStatus) (rc : ℤ) (desc : String) (receipt : Option String)
    (cid : String) :
    List.find? (fun t => t.checkoutRequestId = some cid)
      (mpesaApplyCallback mdb ref st rc desc receipt) =
    (List.find? (fun t => t.checkoutRequestId = some cid) mdb).map
      (fun t =>
        if t.transactionReference = ref then
          { t with
            status := st
            resultCode := some rc
            resultDesc := some desc
            mpesaReceiptNumber :=
              if st = .completed then receipt else t.mpesaReceiptNumber }
        else t) := by
  unfold mpesaApplyCallback
  apply find?_map_of_pres
  intro x
  by_cases h : x.transactionReference = ref <;> simp [h]

lemma mpesaApplyCallback_idem (mdb : List MpesaTx) (ref : String) (st : TxStatus)
    (rc : ℤ) (desc : String) (receipt : Option String) :
    mpesaApplyCallback (mpesaApplyCallback mdb ref st rc desc receipt)
      ref st rc desc receipt = mpesaApplyCallback mdb ref st rc desc receipt := by
  unfold mpesaApplyCallback
  rw [List.map_map]
  refine List.map_congr_left ?_
  intro x _
  by_cases h : x.transactionReference = ref <;>
    by_cases hs : st = TxStatus.completed <;>
      simp [Function.comp, h, hs]

/-- C2: confirmed. `otpService.generateOTP`'s transaction lookup queries only
the hosted-checkout `transactions` table, so for an M-Pesa reference — absent
from that table by the cross-variant reference-uniqueness invariant of §3,
hypothesis `hcol` — issuance fails with `'Transaction not found'` on *every*
delivery and the failure is swallowed. Hence the state after the first
success callback carries no new credential and no SMS, and delivering the
same success callback a second time returns that state unchanged: the
transaction update rewrites the very same field values and the failed
issuance touches nothing. -/
theorem duplicate_success_callback_idempotent
    (cfg : OtpConfig) (H : String → String) (s : SysState)
    (cb : DarajaCallback) (code1 code2 : String) (now1 now2 : Nat)
    (tx : MpesaTx) (r1 : CallbackResult) (s1 : SysState)
    (hfind : List.find? (fun t => t.checkoutRequestId = some cb.checkoutRequestId)
      s.mpesa = some tx)
    (hrc : cb.resultCode = 0)
    (hcol : transactionFindByReference s.hosted tx.transactionReference = none)
    (h1 : handleCallback cfg H s cb code1 now1 = (r1, s1)) :
    handleCallback cfg H s1 cb code2 now2 = (.processed .completed, s1) ∧
    s1.otps = s.otps ∧ s1.smsLog = s.smsLog := by
  have hst : statusFromResultCode cb.resultCode = .completed := by
    rw [hrc]; rfl
  simp +decide only [handleCallback, hfind, hst, generateOTPService, hcol] at h1
  injection h1 with hr1 hs1
  subst hs1
  have hfind2 : List.find? (fun t => t.checkoutRequestId = some cb.checkoutRequestId)
      (mpesaApplyCallback s.mpesa tx.transactionReference .completed cb.resultCode
        cb.resultDesc cb.mpesaReceiptNumber) =
      some { tx with
        status := .completed
        resultCode := some cb.resultCode
        resultDesc := some cb.resultDesc
        mpesaReceiptNumber := cb.mpesaReceiptNumber } := by
    rw [mpesaApplyCallback_find?_checkout, hfind]
    simp
  refine ⟨?_, rfl, rfl⟩
  simp +decide only [handleCallback, hfind2, hst, generateOTPService, hcol]
  rw [mpesaApplyCallback_idem]
  simp

/-- Witness for C2 at a concrete scenario: `sampleState` holds the pending
M-Pesa transaction `TX1`/`CR1` and an empty hosted store; the same success
callback is delivered at time 0 and again at time 1000. -/
theorem duplicate_success_callback_idempotent_witness :
    (List.find? (fun t => t.checkoutRequestId = some sampleCallback.checkoutRequestId)
      sampleState.mpesa = some sampleMpesaTx) ∧
    sampleCallback.resultCode = 0 ∧
    transactionFindByReference sampleState.hosted
      sampleMpesaTx.transactionReference = none ∧
    (handleCallback cfgNoCache idHash
      (handleCallback cfgNoCache idHash sampleState sampleCallback "111111" 0).2
      sampleCallback "222222" 1000 =
      (.processed .completed,
        (handleCallback cfgNoCache idHash sampleState sampleCallback "111111" 0).2) ∧
    (handleCallback cfgNoCache idHash sampleState sampleCallback "111111" 0).2.otps =
      sampleState.otps ∧
    (handleCallback cfgNoCache idHash sampleState sampleCallback "111111" 0).2.smsLog =
      sampleState.smsLog) :=
  ⟨by decide, rfl, rfl,
   duplicate_success_callback_idempotent cfgNoCache idHash sampleState sampleCallback
     "111111" "222222" 0 1000 sampleMpesaTx
     (handleCallback cfgNoCache idHash sampleState sampleCallback "111111" 0).1
     (handleCallback cfgNoCache idHash sampleState sampleCallback "111111" 0).2
     (by decide) rfl rfl rfl⟩

/-! ## C8: the single-live-credential invariant -/

/-- C8 counterexample: re-issuing after the previous credential's expiry
time has passed (but before the sweeper ran) leaves TWO rows with status
`active` for the same reference — the stale row is not transitioned to
`expired`, because `findActiveByTransaction` (filtered by
`expires_at > NOW()`) no longer returns it. -/
theorem stale_active_not_expired_on_reissue_cex :
    ((generateOTPService cfgNoCache idHash [sampleHostedTx] [sampleStaleOtp] []
      "TX1" 10 "654321" 10).2.1.filter
      (fun o => o.transactionReference == "TX1" && o.status == OtpStatus.active)).length
      = 2 ∧
    (generateOTPService cfgNoCache idHash [sampleHostedTx] [sampleStaleOtp] []
      "TX1" 10 "654321" 10).2.1.map Otp.status = [.active, .active] := by
  constructor <;>
    simp +decide only [generateOTPService, transactionFindByReference,
      findActiveByTransaction, pickLatest, pickStep, isLive, refMatches, liveTail,
      updateStatus, nextId, cacheSet, cfgNoCache, defaultOtpConfig, sampleStaleOtp,
      sampleOtp, sampleHostedTx, idHash, List.find?, List.filter, List.map,
      List.foldl, Option.map]

lemma IdsNodup_map {g : Otp → Otp} (hg : ∀ x, (g x).id = x.id) {db : List Otp}
    (hn : IdsNodup db) : IdsNodup (db.map g) := by
  unfold IdsNodup
  rw [ids_map_eq hg]
  exact hn

lemma liveCount_le_updateStatus_expired (db : List Otp) (i : Nat) (ref : String)
    (now : Nat) :
    liveCount (updateStatus db i .expired) ref now ≤ liveCount db ref now := by
  unfold liveCount updateStatus
  apply filter_length_map_le
  intro x _ hx
  by_cases h : x.id = i
  · simp [h, isLive, liveTail] at hx
  · simpa [h] using hx

lemma liveCount_le_incrementAttempts (db : List Otp) (i : Nat) (ref : String)
    (now : Nat) :
    liveCount (incrementAttempts db i) ref now ≤ liveCount db ref now := by
  unfold liveCount incrementAttempts
  apply filter_length_map_le
  intro x _ hx
  by_cases h : x.id = i
  · by_cases hm : x.maxAttempts ≤ x.attempts + 1
    · simp [h, incrementAttemptsRow, hm, isLive, liveTail] at hx
    · simpa [h, incrementAttemptsRow, hm, isLive, refMatches, liveTail] using hx
  · simpa [h] using hx

lemma liveCount_le_markAsUsed (db : List Otp) (i : Nat) (ref : String)
    (now nowU : Nat) :
    liveCount (markAsUsed db i nowU) ref now ≤ liveCount db ref now := by
  unfold liveCount markAsUsed
  apply filter_length_map_le
  intro x _ hx
  by_cases h : x.id = i
  · simp [h, isLive, liveTail] at hx
  · simpa [h] using hx

lemma liveCount_le_markExpired (db : List Otp) (ref : String) (now nowS : Nat) :
    liveCount (markExpired db nowS) ref now ≤ liveCount db ref now := by
  unfold liveCount markExpired
  apply filter_length_map_le
  intro x _ hx
  by_cases h : x.status = .active ∧ x.expiresAt ≤ nowS
  · simp [h, isLive, liveTail] at hx
  · simpa [h] using hx

lemma liveCount_le_markInProgress {db : List Otp} {ref0 : String} {now : Nat}
    {o : Otp} (hn : IdsNodup db)
    (hfind : findActiveByTransaction db ref0 now = some o)
    (sid : String) (ref : String) :
    liveCount (markInProgress db o.id sid now) ref now ≤ liveCount db ref now := by
  have hmem := (findActive_isLive hfind).1
  have hlt : liveTail now o = true := by
    have := (findActive_isLive hfind).2
    simp only [isLive, Bool.and_eq_true] at this
    exact this.2
  unfold liveCount markInProgress
  apply filter_length_map_le
  intro x hx hlx
  by_cases h : x.id = o.id
  · have hxo : x = o := id_injective_of_nodup hn hx hmem h
    subst hxo
    simp only [if_pos h, isLive, Bool.and_eq_true] at hlx
    simp only [isLive, Bool.and_eq_true]
    refine ⟨?_, hlt⟩
    simpa [refMatches] using hlx.1
  · simpa [h] using hlx

lemma liveCount_append_single (l : List Otp) (n : Otp) (ref : String) (now : Nat) :
    liveCount (l ++ [n]) ref now =
      liveCount l ref now + (if isLive now ref n = true then 1 else 0) := by
  unfold liveCount
  rw [List.filter_append]
  by_cases h : isLive now ref n = true <;> simp [List.filter, h]

lemma isLive_ref_eq {n : Otp} {ref : String} {now : Nat}
    (h : isLive now ref n = true) : n.transactionReference = ref := by
  simp only [isLive, refMatches, Bool.and_eq_true, beq_iff_eq] at h
  exact h.1

lemma nextId_not_mem_ids (db : List Otp) : nextId db ∉ db.map Otp.id := by
  intro hmem
  rcases List.mem_map.mp hmem with ⟨x, hx, hid⟩
  exact absurd (mem_id_lt_nextId hx) (by rw [hid]; exact lt_irrefl _)

lemma IdsNodup_append_fresh {db : List Otp} (hn : IdsNodup db) {n : Otp}
    (hfresh : n.id = nextId db) : IdsNodup (db ++ [n]) := by
  unfold IdsNodup
  rw [List.map_append]
  rw [List.nodup_append]
  refine ⟨hn, List.nodup_singleton _, ?_⟩
  intro a ha hb
  rcases List.mem_singleton.mp hb with rfl
  rw [hfresh] at ha
  exact nextId_not_mem_ids db ha

lemma liveCount_zero_of_expire_found {db : List Otp} {ref : String} {now : Nat}
    {e : Otp} (hn : IdsNodup db)
    (hfind : findActiveByTransaction db ref now = some e)
    (hcnt : liveCount db ref now ≤ 1) :
    liveCount (updateStatus db e.id .expired) ref now = 0 := by
  have hmem := (findActive_isLive hfind).1
  have hliv := (findActive_isLive hfind).2
  have hfe : e ∈ db.filter (isLive now ref) := List.mem_filter.mpr ⟨hmem, hliv⟩
  unfold liveCount updateStatus
  rw [List.length_eq_zero]
  rw [List.filter_eq_nil_iff]
  rintro a ha
  rcases List.mem_map.mp ha with ⟨x, hx, rfl⟩
  by_cases h : x.id = e.id
  · have hxe : x = e := id_injective_of_nodup hn hx hmem h
    subst hxe
    simp [h, isLive, liveTail]
  · simp only [if_neg h]
    intro hlx
    have hfx : x ∈ db.filter (isLive now ref) := List.mem_filter.mpr ⟨hx, hlx⟩
    exact h (congrArg Otp.id (mem_of_length_le_one hcnt hfx hfe))

lemma liveCount_mono_time (db : List Otp) (ref : String) {now now2 : Nat}
    (h : now ≤ now2) : liveCount db ref now2 ≤ liveCount db ref now := by
  unfold liveCount
  apply filter_length_mono
  intro x _ hx
  simp only [isLive, liveTail, Bool.and_eq_true, decide_eq_true_eq] at hx ⊢
  exact ⟨hx.1, hx.2.1, lt_of_le_of_lt h hx.2.2⟩

set_option maxHeartbeats 1000000 in
lemma verify_db_cases (cfg : StationConfig) (H : String → String) (db : List Otp)
    (ref code sid : String) (now : Nat) :
    (verifyOTPForStation cfg H db ref code sid now).2 = db ∨
    ∃ o, findActiveByTransaction db ref now = some o ∧
      ((verifyOTPForStation cfg H db ref code sid now).2 =
        updateStatus db o.id .expired ∨
       (verifyOTPForStation cfg H db ref code sid now).2 =
        incrementAttempts db o.id ∨
       (verifyOTPForStation cfg H db ref code sid now).2 =
        markInProgress db o.id sid now) := by
  unfold verifyOTPForStation
  split
  · exact Or.inl rfl
  split
  · exact Or.inl rfl
  split
  · exact Or.inl rfl
  next o heq =>
    split
    · exact Or.inr ⟨o, heq, Or.inl rfl⟩
    split
    · exact Or.inl rfl
    split
    · exact Or.inl rfl
    split
    · exact Or.inl rfl
    split
    · exact Or.inl rfl
    split
    · dsimp only
      split
      · exact Or.inr ⟨o, heq, Or.inr (Or.inl rfl)⟩
      · exact Or.inr ⟨o, heq, Or.inr (Or.inl rfl)⟩
    · exact Or.inr ⟨o, heq, Or.inr (Or.inr rfl)⟩

set_option maxHeartbeats 1000000 in
lemma customer_db_cases (cfg : OtpConfig) (H : String → String) (db : List Otp)
    (cache : Cache) (ref code : String) (now : Nat) :
    (customerVerifyOTP cfg H db cache ref code now).2.1 = db ∨
    ∃ o, findActiveByTransaction db ref now = some o ∧
      ((customerVerifyOTP cfg H db cache ref code now).2.1 =
        updateStatus db o.id .expired ∨
       (customerVerifyOTP cfg H db cache ref code now).2.1 =
        incrementAttempts db o.id ∨
       (customerVerifyOTP cfg H db cache ref code now).2.1 =
        markAsUsed db o.id now) := by
  unfold customerVerifyOTP
  rcases hfc : (if cfg.cacheEnabled then (cacheGet cache ref).map Loaded.fromCache
      else none) with _ | l
  · rcases hfind : findActiveByTransaction db ref now with _ | o
    · exact Or.inl rfl
    · simp only [Option.map_some']
      split
      · exact Or.inr ⟨o, rfl, Or.inl rfl⟩
      split
      · exact Or.inl rfl
      split
      · exact Or.inl rfl
      split
      · split
        · exact Or.inr ⟨o, rfl, Or.inr (Or.inl rfl)⟩
        · exact Or.inr ⟨o, rfl, Or.inr (Or.inl rfl)⟩
      · exact Or.inr ⟨o, rfl, Or.inr (Or.inr rfl)⟩
  · have hl : ∃ e, l = Loaded.fromCache e := by
      by_cases hc : cfg.cacheEnabled = true
      · rw [if_pos hc] at hfc
        rcases hx : cacheGet cache ref with _ | e
        · rw [hx] at hfc
          cases hfc
        · rw [hx, Option.map_some'] at hfc
          exact ⟨e, (Option.some.injEq _ _ ▸ hfc).symm⟩
      · rw [if_neg hc] at hfc
        cases hfc
    rcases hl with ⟨e, rfl⟩
    dsimp only
    split
    · exact Or.inl rfl
    split
    · exact Or.inl rfl
    split
    · exact Or.inl rfl
    split
    · exact Or.inl rfl
    · exact Or.inl rfl

lemma cred_inv_of_le {db db' : List Otp} {now : Nat} (hn : CredInvariant db now)
    (hnodup : IdsNodup db')
    (hle : ∀ ref, liveCount db' ref now ≤ liveCount db ref now) :
    CredInvariant db' now :=
  ⟨hnodup, fun ref => le_trans (hle ref) (hn.2 ref)⟩

lemma IdsNodup_updateStatus {db : List Otp} (hn : IdsNodup db) (i : Nat)
    (st : OtpStatus) : IdsNodup (updateStatus db i st) := by
  unfold updateStatus
  exact IdsNodup_map (fun x => by by_cases h : x.id = i <;> simp [h]) hn

lemma IdsNodup_incrementAttempts {db : List Otp} (hn : IdsNodup db) (i : Nat) :
    IdsNodup (incrementAttempts db i) := by
  unfold incrementAttempts
  exact IdsNodup_map
    (fun x => by by_cases h : x.id = i <;> simp [h, incrementAttemptsRow]) hn

lemma IdsNodup_markAsUsed {db : List Otp} (hn : IdsNodup db) (i now : Nat) :
    IdsNodup (markAsUsed db i now) := by
  unfold markAsUsed
  exact IdsNodup_map (fun x => by by_cases h : x.id = i <;> simp [h]) hn

lemma IdsNodup_markInProgress {db : List Otp} (hn : IdsNodup db) (i : Nat)
    (sid : String) (now : Nat) : IdsNodup (markInProgress db i sid now) := by
  unfold markInProgress
  exact IdsNodup_map (fun x => by by_cases h : x.id = i <;> simp [h]) hn

lemma IdsNodup_markExpired {db : List Otp} (hn : IdsNodup db) (now : Nat) :
    IdsNodup (markExpired db now) := by
  unfold markExpired
  exact IdsNodup_map
    (fun x => by by_cases h : x.status = .active ∧ x.expiresAt ≤ now <;> simp [h]) hn

lemma cred_inv_station_verify (cfg : StationConfig) (H : String → String)
    (db : List Otp) (ref code sid : String) (now : Nat)
    (hn : CredInvariant db now) :
    CredInvariant (verifyOTPForStation cfg H db ref code sid now).2 now := by
  rcases verify_db_cases cfg H db ref code sid now with h | ⟨o, hfind, h | h | h⟩ <;>
    rw [h]
  · exact hn
  · exact cred_inv_of_le hn (IdsNodup_updateStatus hn.1 _ _)
      (fun ref' => liveCount_le_updateStatus_expired db o.id ref' now)
  · exact cred_inv_of_le hn (IdsNodup_incrementAttempts hn.1 _)
      (fun ref' => liveCount_le_incrementAttempts db o.id ref' now)
  · exact cred_inv_of_le hn (IdsNodup_markInProgress hn.1 _ _ _)
      (fun ref' => liveCount_le_markInProgress hn.1 hfind sid ref')

lemma cred_inv_customer_verify (cfg : OtpConfig) (H : String → String)
    (db : List Otp) (cache : Cache) (ref code : String) (now : Nat)
    (hn : CredInvariant db now) :
    CredInvariant (customerVerifyOTP cfg H db cache ref code now).2.1 now := by
  rcases customer_db_cases cfg H db cache ref code now with h | ⟨o, hfind, h | h | h⟩ <;>
    rw [h]
  · exact hn
  · exact cred_inv_of_le hn (IdsNodup_updateStatus hn.1 _ _)
      (fun ref' => liveCount_le_updateStatus_expired db o.id ref' now)
  · exact cred_inv_of_le hn (IdsNodup_incrementAttempts hn.1 _)
      (fun ref' => liveCount_le_incrementAttempts db o.id ref' now)
  · exact cred_inv_of_le hn (IdsNodup_markAsUsed hn.1 _ _)
      (fun ref' => liveCount_le_markAsUsed db o.id ref' now now)

lemma cred_inv_sweep (db : List Otp) (now : Nat) (hn : CredInvariant db now) :
    CredInvariant (markExpired db now) now :=
  cred_inv_of_le hn (IdsNodup_markExpired hn.1 now)
    (fun ref' => liveCount_le_markExpired db ref' now now)

lemma cred_inv_time (db : List Otp) (now now2 : Nat) (h : now ≤ now2)
    (hn : CredInvariant db now) : CredInvariant db now2 :=
  ⟨hn.1, fun ref => le_trans (liveCount_mono_time db ref h) (hn.2 ref)⟩

lemma cred_inv_generate (cfg : OtpConfig) (H : String → String)
    (hdb : List HostedTx) (db : List Otp) (cache : Cache)
    (ref : String) (liters : ℚ) (code : String) (now : Nat)
    (hn : CredInvariant db now) :
    CredInvariant
      (generateOTPService cfg H hdb db cache ref liters code now).2.1 now := by
  unfold generateOTPService
  split
  · exact hn
  split
  · exact hn
  rcases hfa : findActiveByTransaction db ref now with _ | e
  · dsimp only
    constructor
    · exact IdsNodup_append_fresh hn.1 rfl
    · intro ref'
      rw [liveCount_append_single]
      by_cases hl : isLive now ref'
          { id := nextId db, transactionReference := ref, otpHash := H code
            liters := liters, status := .active, stationId := none, attempts := 0
            maxAttempts := cfg.maxAttempts, usedAt := none, verifiedAt := none
            expiresAt := now + cfg.expirationMinutes * 60000, createdAt := now } = true
      · have href' : ref = ref' := isLive_ref_eq hl
        subst href'
        have h0 : liveCount db ref now = 0 := by
          simp [liveCount, findActive_none_iff.mp hfa]
        rw [h0, if_pos hl]
      · rw [if_neg hl]
        simpa using hn.2 ref'
  · dsimp only
    constructor
    · exact IdsNodup_append_fresh (IdsNodup_updateStatus hn.1 _ _) rfl
    · intro ref'
      rw [liveCount_append_single]
      by_cases hl : isLive now ref'
          { id := nextId (updateStatus db e.id .expired), transactionReference := ref
            otpHash := H code, liters := liters, status := .active, stationId := none
            attempts := 0, maxAttempts := cfg.maxAttempts, usedAt := none
            verifiedAt := none, expiresAt := now + cfg.expirationMinutes * 60000
            createdAt := now } = true
      · have href' : ref = ref' := isLive_ref_eq hl
        subst href'
        have h0 : liveCount (updateStatus db e.id .expired) ref now = 0 :=
          liveCount_zero_of_expire_found hn.1 hfa (hn.2 ref)
        rw [h0, if_pos hl]
      · rw [if_neg hl]
        exact le_trans (by simpa using liveCount_le_updateStatus_expired db e.id ref' now)
          (hn.2 ref')

lemma generate_expires_existing (cfg : OtpConfig) (H : String → String)
    (hdb : List HostedTx) (db : List Otp) (cache : Cache)
    (ref : String) (liters : ℚ) (code : String) (now : Nat) (t : HostedTx) (e : Otp)
    (htx : transactionFindByReference hdb ref = some t)
    (hc : t.status = .completed)
    (hfa : findActiveByTransaction db ref now = some e) :
    (generateOTPService cfg H hdb db cache ref liters code now).2.1 =
      updateStatus db e.id .expired ++
        [{ id := nextId (updateStatus db e.id .expired), transactionReference := ref
           otpHash := H code, liters := liters, status := .active, stationId := none
           attempts := 0, maxAttempts := cfg.maxAttempts, usedAt := none
           verifiedAt := none, expiresAt := now + cfg.expirationMinutes * 60000
           createdAt := now }] := by
  unfold generateOTPService
  simp only [htx, hfa, hc]
  simp

/-- C8 (amended): the invariant that holds and is preserved is "at most one
*live* credential — status `active`/`in_progress` and not past its expiry —
per transaction reference" (together with primary-key uniqueness of ids).
Issuance first transitions the live credential found by
`findActiveByTransaction` to `expired` (a stale status-`active` row whose
expiry already passed is *not* transitioned — see the counterexample), and
the invariant is preserved by issuance, by both verify operations, by the
expiry sweep, and by the passage of time. -/
theorem live_credential_invariant_preserved :
    (∀ (cfg : OtpConfig) (H : String → String)
        (hdb : List HostedTx) (db : List Otp) (cache : Cache) (ref : String)
        (liters : ℚ) (code : String) (now : Nat), CredInvariant db now →
      CredInvariant
        (generateOTPService cfg H hdb db cache ref liters code now).2.1 now) ∧
    (∀ (cfg : OtpConfig) (H : String → String)
        (hdb : List HostedTx) (db : List Otp) (cache : Cache) (ref : String)
        (liters : ℚ) (code : String) (now : Nat) (t : HostedTx) (e : Otp),
      transactionFindByReference hdb ref = some t → t.status = .completed →
      findActiveByTransaction db ref now = some e →
      (generateOTPService cfg H hdb db cache ref liters code now).2.1 =
        updateStatus db e.id .expired ++
          [{ id := nextId (updateStatus db e.id .expired), transactionReference := ref
             otpHash := H code, liters := liters, status := .active, stationId := none
             attempts := 0, maxAttempts := cfg.maxAttempts, usedAt := none
             verifiedAt := none, expiresAt := now + cfg.expirationMinutes * 60000
             createdAt := now }]) ∧
    (∀ (cfg : StationConfig) (H : String → String) (db : List Otp)
        (ref code sid : String) (now : Nat), CredInvariant db now →
      CredInvariant (verifyOTPForStation cfg H db ref code sid now).2 now) ∧
    (∀ (cfg : OtpConfig) (H : String → String) (db : List Otp) (cache : Cache)
        (ref code : String) (now : Nat), CredInvariant db now →
      CredInvariant (customerVerifyOTP cfg H db cache ref code now).2.1 now) ∧
    (∀ (db : List Otp) (now : Nat), CredInvariant db now →
      CredInvariant (markExpired db now) now) ∧
    (∀ (db : List Otp) (now now2 : Nat), now ≤ now2 → CredInvariant db now →
      CredInvariant db now2) :=
  ⟨cred_inv_generate, generate_expires_existing, cred_inv_station_verify,
    cred_inv_customer_verify, cred_inv_sweep, cred_inv_time⟩

/-- Witness for C8: concrete issuance into an empty store and a concrete
sweep over a one-credential store, both preserving the invariant. -/
theorem live_credential_invariant_preserved_witness :
    CredInvariant (generateOTPService cfgNoCache idHash [sampleHostedTx] [] []
      "TX1" 10 "111111" 0).2.1 0 ∧
    CredInvariant (markExpired [sampleOtp] 2000) 2000 := by
  constructor
  · exact live_credential_invariant_preserved.1 cfgNoCache idHash [sampleHostedTx]
      [] [] "TX1" 10 "111111" 0
      ⟨by simp [IdsNodup], fun ref => by simp [liveCount]⟩
  · exact live_credential_invariant_preserved.2.2.2.2.1 [sampleOtp] 2000
      ⟨by simp [IdsNodup], fun ref =>
        le_trans (List.length_filter_le _ _) (by simp)⟩

end WaterStation
